import Mathlib

/-!
# The activities page view controller (`src/static/app.js`)

A shallow embedding of the browser script: the page state it reads and writes
(the list area, the selection control, the message line and its hide timers,
the log of network calls), the three asynchronous routines `fetchActivities`,
`handleUnregisterClick` and the submit listener of the signup form, and
`showMessage`.

Conventions of the embedding.

* A JavaScript string is the list of its UTF-16 code units (`JSString`), so that
  unpaired surrogates, on which `encodeURIComponent` throws, are values of the type.
* A parsed response body is a `JSON` value; `undefined` is `none` in `JSVal`.
  Arithmetic is computed on the integers of magnitude at most `2 ^ 53`, where
  JavaScript subtraction is exact; a numeric expression the embedding does not
  compute is kept as a term.
* What the network answers is an input (`FetchResult`): the `fetch` promise
  rejects, or it resolves to a response with a status and a body that
  `response.json()` either parses or rejects.
* A routine returns an `Outcome`: the page as the statements executed so far
  left it, and the error when one was thrown to the caller.
* A handler is applied to the page as it is when the answer it awaits arrives;
  before the `await` it only issues its request. A call of `fetchActivities`
  that is not awaited issues the read request (`fetchActivitiesStart`); what it
  does with the answer is `fetchActivitiesResume`. Time passes between calls
  by `advanceTo`, which runs the timers that are due.
-/

namespace App

/-! ## Strings -/

/-- A JavaScript string value: its UTF-16 code units, each below `65536`. -/
abbrev JSString := List Nat

/-- UTF-16 code units of a Unicode scalar value. -/
def utf16Char (c : Char) : JSString :=
  if c.toNat < 65536 then [c.toNat]
  else [55296 + (c.toNat - 65536) / 1024, 56320 + (c.toNat - 65536) % 1024]

/-- The JavaScript string denoted by a string literal of the source. -/
def utf16 (s : String) : JSString := s.toList.flatMap utf16Char

/-- The errors the script can meet: a `TypeError` of the language, the
`URIError` of `encodeURIComponent`, the `SyntaxError` with which
`response.json()` rejects, and the rejection of `fetch` itself. -/
inductive JSError where
  | TypeError
  | URIError
  | SyntaxError
  | NetworkError
deriving DecidableEq, Repr

/-! ## `encodeURIComponent` (ECMA-262, `Encode` with the empty extra set) -/

/-- Code units left as they are: ASCII letters, digits and `-_.!~*'()`. -/
def isUnescaped (c : Nat) : Bool :=
  (65 ≤ c && c ≤ 90) || (97 ≤ c && c ≤ 122) || (48 ≤ c && c ≤ 57) ||
    [45, 95, 46, 33, 126, 42, 39, 40, 41].contains c

def isLeadSurrogate (c : Nat) : Bool := 55296 ≤ c && c ≤ 56319

def isTrailSurrogate (c : Nat) : Bool := 56320 ≤ c && c ≤ 57343

/-- The UTF-8 transformation of a code point. -/
def utf8Octets (cp : Nat) : List Nat :=
  if cp < 128 then [cp]
  else if cp < 2048 then [192 + cp / 64, 128 + cp % 64]
  else if cp < 65536 then [224 + cp / 4096, 128 + cp / 64 % 64, 128 + cp % 64]
  else [240 + cp / 262144, 128 + cp / 4096 % 64, 128 + cp / 64 % 64, 128 + cp % 64]

/-- An uppercase hexadecimal digit. -/
def hexDigit (n : Nat) : Nat := if n < 10 then 48 + n else 55 + n

/-- An octet written as `%XX`. -/
def percentOctet (o : Nat) : JSString := [37, hexDigit (o / 16), hexDigit (o % 16)]

/-- The escape sequence of a code point. -/
def percentEscape (cp : Nat) : JSString := (utf8Octets cp).flatMap percentOctet

/-- The built-in `encodeURIComponent`: unescaped code units are copied, every
other code point is replaced by the escapes of its UTF-8 octets, and an
unpaired surrogate throws a `URIError`. -/
def encodeURIComponent : JSString → Except JSError JSString
  | [] => .ok []
  | c :: rest =>
    if isUnescaped c then
      (encodeURIComponent rest).map (c :: ·)
    else if isLeadSurrogate c then
      match rest with
      | [] => .error .URIError
      | d :: rest2 =>
        if isTrailSurrogate d then
          (encodeURIComponent rest2).map
            (percentEscape ((c - 55296) * 1024 + (d - 56320) + 65536) ++ ·)
        else .error .URIError
    else if isTrailSurrogate c then .error .URIError
    else (encodeURIComponent rest).map (percentEscape c ++ ·)

/-! ## JSON values and the JavaScript operations the script applies to them -/

/-- The largest magnitude up to which every integer is a JavaScript number. -/
def maxExactInteger : Nat := 2 ^ 53

/-- A value produced by `response.json()`. A number is `num n` when it is an
integer `n` of magnitude at most `2 ^ 53`; any other number (a fraction, or a
larger one) is `real text`, given by the text `ToString` writes for it. An
object is the list of its own properties in the order `Object.entries`
enumerates them. -/
inductive JSON where
  | null
  | bool (b : Bool)
  | num (n : Int) (exact : n.natAbs ≤ maxExactInteger)
  | real (text : JSString)
  | str (s : JSString)
  | arr (items : List JSON)
  | obj (props : List (JSString × JSON))

/-- A JavaScript value read from a parsed body: `none` is `undefined`. -/
abbrev JSVal := Option JSON

mutual
/-- `ToString` of a parsed value, as a template literal applies it. An array
is joined. An object is converted by the `toString` it inherits, unless it has
an own property of that name: a parsed property is never a function, and the
inherited `valueOf` returns the object, so the conversion throws a `TypeError`. -/
def JSON.toStr : JSON → Except JSError JSString
  | .null => .ok (utf16 "null")
  | .bool true => .ok (utf16 "true")
  | .bool false => .ok (utf16 "false")
  | .num n _ => .ok (utf16 (toString n))
  | .real text => .ok text
  | .str s => .ok s
  | .arr items => JSON.join items
  | .obj props =>
    if (props.lookup (utf16 "toString")).isSome then .error .TypeError
    else .ok (utf16 "[object Object]")
/-- `Array.prototype.join` with the default separator: `null` elements give
the empty string, the others their `ToString`. -/
def JSON.join : List JSON → Except JSError JSString
  | [] => .ok []
  | [.null] => .ok []
  | [x] => x.toStr
  | .null :: y :: rest => (JSON.join (y :: rest)).map (utf16 "," ++ ·)
  | x :: y :: rest =>
    match x.toStr with
    | .error e => .error e
    | .ok first => (JSON.join (y :: rest)).map (first ++ utf16 "," ++ ·)
end

/-- `ToString` of a value that may be `undefined`. -/
def toStr : JSVal → Except JSError JSString
  | none => .ok (utf16 "undefined")
  | some v => v.toStr

/-- Reading a property `v.key` for one of the names the script uses
(`max_participants`, `participants`, `description`, `schedule`, `message`,
`detail`; none of them is on a built-in prototype): a `TypeError` on
`undefined` and `null`, the own property of an object, `undefined` otherwise. -/
def getProp (v : JSVal) (key : JSString) : Except JSError JSVal :=
  match v with
  | none => .error .TypeError
  | some .null => .error .TypeError
  | some (.obj props) => .ok (props.lookup key)
  | some _ => .ok none

/-- An operand of a numeric expression: a value read from a parsed body, or
the length of a string or of an array. -/
inductive Operand where
  | value (v : JSVal)
  | length (n : Nat)

/-- Reading `v.length`. -/
def getLength (v : JSVal) : Except JSError Operand :=
  match v with
  | none => .error .TypeError
  | some .null => .error .TypeError
  | some (.str s) => .ok (.length s.length)
  | some (.arr items) => .ok (.length items.length)
  | some (.obj props) => .ok (.value (props.lookup (utf16 "length")))
  | some _ => .ok (.value none)

/-- Pairs an index key with each element, as `Object.entries` does for an
array or a string. -/
def indexed {α : Type} (f : α → JSON) : Nat → List α → List (JSString × JSON)
  | _, [] => []
  | i, x :: xs => (utf16 (toString i), f x) :: indexed f (i + 1) xs

/-- `Object.entries(v)` for a parsed body: a `TypeError` on `null`, nothing for
a boolean or a number, the indexed code units of a string, the indexed elements
of an array, the own properties of an object. -/
def objectEntries : JSON → Except JSError (List (JSString × JSON))
  | .null => .error .TypeError
  | .bool _ => .ok []
  | .num _ _ => .ok []
  | .real _ => .ok []
  | .str s => .ok (indexed (fun c => JSON.str [c]) 0 s)
  | .arr items => .ok (indexed id 0 items)
  | .obj props => .ok props

/-- The result of a numeric expression. Integers and `NaN` are computed; a
number that is not an exact integer is given by its text, and the numeric value
of a string operand (`StringToNumber`) and a difference the embedding does not
compute are kept as terms. -/
inductive JSNumber where
  | int (n : Int)
  | nan
  | real (text : JSString)
  | ofString (s : JSString)
  | minus (a b : JSNumber)
deriving DecidableEq

/-- `ToNumber` of an operand. An array or an object is first converted to a
string, which throws where `ToString` does. -/
def toNumber : Operand → Except JSError JSNumber
  | .length n => .ok (.int n)
  | .value none => .ok .nan
  | .value (some .null) => .ok (.int 0)
  | .value (some (.bool true)) => .ok (.int 1)
  | .value (some (.bool false)) => .ok (.int 0)
  | .value (some (.num n _)) => .ok (.int n)
  | .value (some (.real text)) => .ok (.real text)
  | .value (some (.str s)) => .ok (.ofString s)
  | .value (some (.arr items)) => (JSON.join items).map .ofString
  | .value (some (.obj props)) => (JSON.toStr (.obj props)).map fun _ => .nan

/-- The subtraction `a - b` of two numbers. The difference of two integers is
computed when it is within the range in which integers are exact. -/
def JSNumber.sub : JSNumber → JSNumber → JSNumber
  | .int x, .int y =>
    if (x - y).natAbs ≤ maxExactInteger then .int (x - y) else .minus (.int x) (.int y)
  | .nan, _ => .nan
  | _, .nan => .nan
  | a, b => .minus a b

/-- `ToString` of a number, where the embedding computes it. -/
def JSNumber.toStr : JSNumber → Option JSString
  | .int n => some (utf16 (toString n))
  | .nan => some (utf16 "NaN")
  | .real text => some text
  | _ => none

/-- Truthiness of a value, as `||` tests it. -/
def truthy : JSVal → Bool
  | none => false
  | some .null => false
  | some (.bool b) => b
  | some (.num n _) => n != 0
  | some (.str s) => !s.isEmpty
  | some _ => true

/-- The expression `v || fallback` with a string literal on the right. -/
def orElse (v : JSVal) (fallback : JSString) : JSVal :=
  if truthy v then v else some (.str fallback)

/-! ## The page -/

/-- An `option` element of the selection control. -/
structure SelectOption where
  value : JSString
  textContent : JSString
deriving DecidableEq

/-- The `div` built for one activity. `innerHTML` is a template literal: its
five substitutions are the fields `name` to `participantsHtml`, and
`ActivityCard.innerHTML` is the text they are placed in. -/
structure ActivityCard where
  className : JSString
  activityName : JSString
  name : JSString
  description : JSString
  schedule : JSString
  spotsLeft : JSNumber
  participantsHtml : JSString
deriving DecidableEq

/-- The line of a card that shows its availability. -/
def ActivityCard.availability (c : ActivityCard) : Option JSString :=
  c.spotsLeft.toStr.map fun n =>
    utf16 "<p><strong>Availability:</strong> " ++ n ++ utf16 " spots left</p>"

/-- The markup assigned to `activityCard.innerHTML`. -/
def ActivityCard.innerHTML (c : ActivityCard) : Option JSString :=
  c.availability.map fun line =>
    utf16 "\n          <h4>" ++ c.name ++ utf16 "</h4>\n          <p>" ++ c.description ++
    utf16 "</p>\n          <p><strong>Schedule:</strong> " ++ c.schedule ++
    utf16 "</p>\n          " ++ line ++
    utf16 "\n          <p><strong>Participants:</strong></p>\n          " ++
    c.participantsHtml ++ utf16 "\n        "

/-- A child of the list area: an appended activity card, or the nodes parsed
from a markup string assigned to `innerHTML`. -/
inductive Node where
  | card (c : ActivityCard)
  | markup (html : JSString)
deriving DecidableEq

/-- The activity a list child is the card of. -/
def Node.activityName : Node → Option JSString
  | .card c => some c.activityName
  | .markup _ => none

/-- The availability number a list child shows. -/
def Node.spotsLeft : Node → Option JSNumber
  | .card c => some c.spotsLeft
  | .markup _ => none

/-- The availability line a list child shows. -/
def Node.availability : Node → Option JSString
  | .card c => c.availability
  | .markup _ => none

inductive Method where
  | GET
  | POST
  | DELETE
deriving DecidableEq, Repr

/-- A call of `fetch`. -/
structure Request where
  method : Method
  url : JSString
deriving DecidableEq

/-- The two classifications `showMessage` is called with. -/
inductive MessageType where
  | success
  | error
deriving DecidableEq, Repr

/-- The string the source passes for a classification. -/
def MessageType.name : MessageType → JSString
  | .success => utf16 "success"
  | .error => utf16 "error"

/-- The element `messageDiv`: its text and its class list. -/
structure MessageDiv where
  textContent : JSString
  classList : List JSString
deriving DecidableEq

/-- The state the script works on. `timers` holds the due times of the pending
`setTimeout` callbacks, `requests` the calls of `fetch` in the order issued,
`formResets` counts the calls of `signupForm.reset()`, `prompts` the texts
passed to `confirm`, `console` the calls of `console.error`. -/
structure Page where
  activitiesList : List Node
  activitySelect : List SelectOption
  messageDiv : MessageDiv
  now : Nat
  timers : List Nat
  requests : List Request
  formResets : Nat
  prompts : List JSString
  console : List (JSString × JSError)
deriving DecidableEq

/-- What a block of statements leaves behind: the page, and the error when one
was thrown. -/
inductive Outcome where
  | done (s : Page)
  | threw (e : JSError) (s : Page)

/-- What the network answers to a request. -/
inductive FetchResult where
  | rejected
  | response (status : Nat) (body : Option JSON)

/-- The getter `response.ok`: the status is in the range 200 to 299. -/
def responseOk (status : Nat) : Bool := 200 ≤ status && status ≤ 299

/-- The call of `fetch` on a URL with a method: the request is issued. -/
def fetch (method : Method) (url : JSString) (s : Page) : Page :=
  { s with requests := s.requests ++ [⟨method, url⟩] }

/-- The call `console.error(label, error)`. -/
def consoleError (label : JSString) (e : JSError) (s : Page) : Page :=
  { s with console := s.console ++ [(label, e)] }

/-! ## `fetchActivities` -/

/-- The setter `select.length = n`: options past `n` are removed, and blank
options are appended when there are fewer. -/
def setLength (n : Nat) (options : List SelectOption) : List SelectOption :=
  options.take n ++ List.replicate (n - options.length) ⟨[], []⟩

/-- The text appended by one step of `participantsHtml +=` in the loop over
`details.participants`. -/
def participantItem (name : JSString) (participant : JSON) : Except JSError JSString :=
  match participant.toStr with
  | .error e => .error e
  | .ok text =>
    .ok (utf16 "<div class=\"participant-item\">" ++ text ++
      utf16 " <span class=\"delete-icon\" data-activity=\"" ++ name ++
      utf16 "\" data-email=\"" ++ text ++ utf16 "\">🗑️</span></div>")

/-- The iteration of `forEach` over the elements of an array, each step
appending its text to `participantsHtml`. -/
def appendEach (f : JSON → Except JSError JSString) :
    List JSON → JSString → Except JSError JSString
  | [], participantsHtml => .ok participantsHtml
  | participant :: rest, participantsHtml =>
    match f participant with
    | .error e => .error e
    | .ok item => appendEach f rest (participantsHtml ++ item)

/-- The method call `participants.forEach(...)`: only an array has the method. -/
def forEachParticipant (participants : JSVal) (f : JSON → Except JSError JSString)
    (participantsHtml : JSString) : Except JSError JSString :=
  match participants with
  | some (.arr items) => appendEach f items participantsHtml
  | _ => .error .TypeError

/-- The body of the callback passed to `Object.entries(activities).forEach`, up
to the two `appendChild` calls: the card and the option built for an entry. -/
def renderActivity (name : JSString) (details : JSON) :
    Except JSError (ActivityCard × SelectOption) := do
  let max_participants ← getProp (some details) (utf16 "max_participants")
  let participants ← getProp (some details) (utf16 "participants")
  let length ← getLength participants
  let spotsLeft := (← toNumber (.value max_participants)).sub (← toNumber length)
  let participantsHtml ← forEachParticipant participants (participantItem name)
    (utf16 "<div class=\"participants-list\">")
  let participantsHtml := participantsHtml ++ utf16 "</div>"
  let description ← toStr (← getProp (some details) (utf16 "description"))
  let schedule ← toStr (← getProp (some details) (utf16 "schedule"))
  pure ({ className := utf16 "activity-card", activityName := name, name := name,
          description := description, schedule := schedule,
          spotsLeft := spotsLeft, participantsHtml := participantsHtml },
        { value := name, textContent := name })

/-- The loop `Object.entries(activities).forEach(...)`: each entry appends its
card to the list and its option to the selection control; an entry that throws
ends the loop with what was appended before it. -/
def forEachEntry : List (JSString × JSON) → Page → Outcome
  | [], s => .done s
  | (name, details) :: rest, s =>
    match renderActivity name details with
    | .error e => .threw e s
    | .ok (activityCard, option) =>
      forEachEntry rest
        { s with activitiesList := s.activitiesList ++ [.card activityCard],
                 activitySelect := s.activitySelect ++ [option] }

/-- The routine `addDeleteIconListeners`: every delete icon gets
`handleUnregisterClick` as its click listener. A click is the application of
`handleUnregisterClick` to the data attributes of the icon, so the page state
does not change here. -/
def addDeleteIconListeners (s : Page) : Page := s

/-- The text of the static failure notice. -/
def failureNotice : JSString :=
  utf16 "<p>Failed to load activities. Please try again later.</p>"

/-- The part of `fetchActivities` that runs when it is called: the read
request is issued. -/
def fetchActivitiesStart (s : Page) : Page := fetch .GET (utf16 "/activities") s

/-- The `try` block of `fetchActivities` from the first `await` on. -/
def fetchActivitiesTry (r : FetchResult) (s : Page) : Outcome :=
  match r with
  | .rejected => .threw .NetworkError s
  | .response _ none => .threw .SyntaxError s
  | .response _ (some activities) =>
    let s := { s with activitiesList := [] }
    let s := { s with activitySelect := setLength 1 s.activitySelect }
    match objectEntries activities with
    | .error e => .threw e s
    | .ok entries =>
      match forEachEntry entries s with
      | .threw e s => .threw e s
      | .done s => .done (addDeleteIconListeners s)

/-- The `catch` block of `fetchActivities`. -/
def fetchActivitiesCatch (error : JSError) (s : Page) : Outcome :=
  let s := { s with activitiesList := [.markup failureNotice] }
  .done (consoleError (utf16 "Error fetching activities:") error s)

/-- The continuation of `fetchActivities` once the network has answered. -/
def fetchActivitiesResume (r : FetchResult) (s : Page) : Outcome :=
  match fetchActivitiesTry r s with
  | .done s => .done s
  | .threw e s => fetchActivitiesCatch e s

/-- The routine `fetchActivities`, run to completion against the answer `r`. -/
def fetchActivities (r : FetchResult) (s : Page) : Outcome :=
  fetchActivitiesResume r (fetchActivitiesStart s)

/-- The page an outcome ends in. -/
def Outcome.page : Outcome → Page
  | .done s => s
  | .threw _ s => s

/-- The error an outcome passes to the caller. -/
def Outcome.thrown : Outcome → Option JSError
  | .done _ => none
  | .threw e _ => some e

/-! ## `showMessage` and its hide timer -/

/-- The class name that hides the message line. -/
def hiddenClass : JSString := utf16 "hidden"

/-- The setter `element.textContent = v`: `undefined` and `null` give the
empty string, any other value its `ToString`. -/
def textContentOf : JSVal → Except JSError JSString
  | none => .ok []
  | some .null => .ok []
  | some v => v.toStr

/-- The call `classList.remove(token)`. -/
def classListRemove (token : JSString) (classList : List JSString) : List JSString :=
  classList.filter (· ≠ token)

/-- The call `classList.add(token)`. -/
def classListAdd (token : JSString) (classList : List JSString) : List JSString :=
  if token ∈ classList then classList else classList ++ [token]

/-- The delay passed to `setTimeout`, in milliseconds. -/
def hideDelay : Nat := 5000

/-- The routine `showMessage(text, type)`, called at the time `s.now`: the
text and the class are replaced, the class `hidden` is removed, and a timer
due `hideDelay` later is started. No pending timer is cancelled. Its first
statement throws when `text` has no string conversion. -/
def showMessage (text : JSVal) (type : MessageType) (s : Page) : Outcome :=
  match textContentOf text with
  | .error e => .threw e s
  | .ok textContent =>
    let messageDiv := { s.messageDiv with textContent := textContent }
    let messageDiv := { messageDiv with classList := [utf16 "message", type.name] }
    let messageDiv :=
      { messageDiv with classList := classListRemove hiddenClass messageDiv.classList }
    .done { s with messageDiv := messageDiv, timers := s.timers ++ [s.now + hideDelay] }

/-- The callback passed to `setTimeout`. -/
def hideMessage (s : Page) : Page :=
  { s with messageDiv :=
      { s.messageDiv with classList := classListAdd hiddenClass s.messageDiv.classList } }

/-- The event loop lets time pass until `t`: every timer due by then runs its
callback, in the order the timers were started. -/
def advanceTo (t : Nat) (s : Page) : Page :=
  let s1 := (s.timers.filter (· ≤ t)).foldl (fun acc _ => hideMessage acc) s
  { s1 with now := max s.now t, timers := s.timers.filter (t < ·) }

/-- The message line is displayed. -/
def Page.messageVisible (s : Page) : Bool := !s.messageDiv.classList.contains hiddenClass

/-! ## The submit listener of the signup form -/

/-- The URL of the signup request. -/
def signupUrl (activity email : JSString) : JSString :=
  utf16 "/activities/" ++ activity ++ utf16 "/signup?email=" ++ email

/-- The `try` block of the submit listener, for the values read from the form
and the answer `r` of the network. -/
def signupTry (email activity : JSString) (r : FetchResult) (s : Page) : Outcome :=
  match encodeURIComponent activity with
  | .error e => .threw e s
  | .ok encodedActivity =>
    match encodeURIComponent email with
    | .error e => .threw e s
    | .ok encodedEmail =>
      let s := fetch .POST (signupUrl encodedActivity encodedEmail) s
      match r with
      | .rejected => .threw .NetworkError s
      | .response _ none => .threw .SyntaxError s
      | .response status (some result) =>
        if responseOk status then
          match getProp (some result) (utf16 "message") with
          | .error e => .threw e s
          | .ok message =>
            match showMessage message .success s with
            | .threw e s => .threw e s
            | .done s =>
              let s := { s with formResets := s.formResets + 1 }
              .done (fetchActivitiesStart s)
        else
          match getProp (some result) (utf16 "detail") with
          | .error e => .threw e s
          | .ok detail => showMessage (orElse detail (utf16 "An error occurred")) .error s

/-- The `catch` block of the submit listener. -/
def signupCatch (error : JSError) (s : Page) : Outcome :=
  match showMessage (some (.str (utf16 "Failed to sign up. Please try again."))) .error s with
  | .threw e s => .threw e s
  | .done s => .done (consoleError (utf16 "Error signing up:") error s)

/-- The submit listener of `signupForm`, for the values `email` and `activity`
read from the form. -/
def signupSubmit (email activity : JSString) (r : FetchResult) (s : Page) : Outcome :=
  if email.isEmpty || activity.isEmpty then
    showMessage (some (.str (utf16 "Please enter email and select an activity."))) .error s
  else
    match signupTry email activity r s with
    | .done s => .done s
    | .threw e s => signupCatch e s

/-! ## `handleUnregisterClick` -/

/-- The URL of the unregister request. -/
def unregisterUrl (activityName email : JSString) : JSString :=
  utf16 "/activities/" ++ activityName ++ utf16 "/unregister?email=" ++ email

/-- The text passed to `confirm`. -/
def confirmText (activityName email : JSString) : JSString :=
  utf16 "Are you sure you want to unregister " ++ email ++ utf16 " from " ++ activityName ++
    utf16 "?"

/-- The `try` block of `handleUnregisterClick`. -/
def unregisterTry (activityName email : JSString) (r : FetchResult) (s : Page) : Outcome :=
  match encodeURIComponent activityName with
  | .error e => .threw e s
  | .ok encodedActivity =>
    match encodeURIComponent email with
    | .error e => .threw e s
    | .ok encodedEmail =>
      let s := fetch .DELETE (unregisterUrl encodedActivity encodedEmail) s
      match r with
      | .rejected => .threw .NetworkError s
      | .response _ none => .threw .SyntaxError s
      | .response status (some result) =>
        if responseOk status then
          let s := fetchActivitiesStart s
          match getProp (some result) (utf16 "message") with
          | .error e => .threw e s
          | .ok message => showMessage message .success s
        else
          match getProp (some result) (utf16 "detail") with
          | .error e => .threw e s
          | .ok detail => showMessage (orElse detail (utf16 "Failed to unregister")) .error s

/-- The `catch` block of `handleUnregisterClick`. -/
def unregisterCatch (error : JSError) (s : Page) : Outcome :=
  match
    showMessage (some (.str (utf16 "An error occurred during unregistration."))) .error s with
  | .threw e s => .threw e s
  | .done s => .done (consoleError (utf16 "Error unregistering:") error s)

/-- The click listener `handleUnregisterClick`, for the data attributes
`activityName` and `email` of the clicked icon and the answer `confirmed` of
the confirmation prompt. -/
def handleUnregisterClick (activityName email : JSString) (confirmed : Bool) (r : FetchResult)
    (s : Page) : Outcome :=
  let s1 := { s with prompts := s.prompts ++ [confirmText activityName email] }
  if !confirmed then .done s1
  else
    match unregisterTry activityName email r s1 with
    | .done s => .done s
    | .threw e s => unregisterCatch e s

/-! ## Vocabulary of the statements -/

/-- An activity as the read contract types it. -/
structure Activity where
  description : JSString
  schedule : JSString
  max_participants : Int
  participants : List JSString

/-- The parsed value `j` is an object that holds the four fields of `a` with the
types of the read contract (in any order, possibly among other properties), and
the number of places left is within the range in which integers are exact. -/
def JSON.IsActivity (j : JSON) (a : Activity) : Prop :=
  (a.max_participants - a.participants.length).natAbs ≤ maxExactInteger ∧
  ∃ props exact, j = .obj props ∧
    props.lookup (utf16 "description") = some (.str a.description) ∧
    props.lookup (utf16 "schedule") = some (.str a.schedule) ∧
    props.lookup (utf16 "max_participants") = some (.num a.max_participants exact) ∧
    props.lookup (utf16 "participants") = some (.arr (a.participants.map .str))

/-- The entries of a payload are, one by one, the activities `acts`. -/
def IsCollection (entries : List (JSString × JSON)) (acts : List Activity) : Prop :=
  List.Forall₂ (fun e a => e.2.IsActivity a) entries acts

/-- The entries rendered before the first one whose rendering throws. -/
def renderedBefore : List (JSString × JSON) → List (JSString × JSON)
  | [] => []
  | e :: rest =>
    match renderActivity e.1 e.2 with
    | .ok _ => e :: renderedBefore rest
    | .error _ => []

/-- The list child built for an entry, when its rendering does not throw. -/
def cardOf (e : JSString × JSON) : List Node :=
  match renderActivity e.1 e.2 with
  | .ok (c, _) => [.card c]
  | .error _ => []

/-- The option built for an entry. -/
def optionOf (e : JSString × JSON) : SelectOption := ⟨e.1, e.1⟩

/-- The list area and the selection control of a page. -/
def Page.view (s : Page) : List Node × List SelectOption := (s.activitiesList, s.activitySelect)

/-- The first option of the selection control, which a refresh keeps (a blank
option when the control is empty). -/
def Page.placeholder (s : Page) : SelectOption := s.activitySelect.headD ⟨[], []⟩

/-- The requests issued between the page `s` and the later page `s2`. -/
def issued (s s2 : Page) : List Request := s2.requests.drop s.requests.length

/-- The read request. -/
def readRequest : Request := ⟨.GET, utf16 "/activities"⟩

/-- A sample page, as before the first load: a loading line in the list area,
the selection control with a placeholder only, the message line hidden. -/
def page0 : Page :=
  { activitiesList := [.markup (utf16 "<p>Loading activities...</p>")],
    activitySelect := [⟨[], utf16 "-- Select an activity --"⟩],
    messageDiv := ⟨[], [utf16 "hidden"]⟩, now := 0, timers := [], requests := [],
    formResets := 0, prompts := [], console := [] }

/-- The activity of the example: ten places, three participants. -/
def chessClub : Activity :=
  { description := utf16 "Learn strategies and compete in chess tournaments",
    schedule := utf16 "Fridays, 3:30 PM - 5:00 PM",
    max_participants := 10,
    participants := [utf16 "michael@mergington.edu", utf16 "daniel@mergington.edu",
      utf16 "emma@mergington.edu"] }

/-- The entries of a read response that holds the example activity. -/
def chessClubBody : List (JSString × JSON) :=
  [(utf16 "Chess Club", .obj [
    (utf16 "description", .str chessClub.description),
    (utf16 "schedule", .str chessClub.schedule),
    (utf16 "max_participants", .num 10 (by decide)),
    (utf16 "participants", .arr (chessClub.participants.map .str))])]

/-- The page after a first successful load of the example. -/
def page1 : Page := (fetchActivities (.response 200 (some (.obj chessClubBody))) page0).page

/-- A payload whose second entry cannot be rendered: its details are `null`. -/
def brokenBody : List (JSString × JSON) := chessClubBody ++ [(utf16 "Art Club", .null)]

/-- The value read from a successful body as `result.message` can be read and
shown: the read does not throw (the body is not `null`) and the value has a
string conversion. -/
def messageShown (result : JSON) : Bool :=
  match getProp (some result) (utf16 "message") with
  | .error _ => false
  | .ok message => (textContentOf message).toBool

/-- The submit listener reaches the end of its success branch: both values are
present and can be encoded, the response has a success status, and its body is
JSON whose message can be read and shown. -/
def signupSucceeds (email activity : JSString) (r : FetchResult) : Bool :=
  !email.isEmpty && !activity.isEmpty &&
  (encodeURIComponent activity).toBool && (encodeURIComponent email).toBool &&
  match r with
  | .response status (some result) => responseOk status && messageShown result
  | _ => false

/-- A read request was issued between the page `s` and the later page `s2`. -/
def refreshed (s s2 : Page) : Bool := (issued s s2).contains readRequest

/-- Two calls of `showMessage` with string texts: the first at the time
`s.now`, the second at the time `t2`, with nothing but the passing of time in
between. -/
def shownTwice (text1 text2 : JSString) (type1 type2 : MessageType) (t2 : Nat) (s : Page) :
    Page :=
  (showMessage (some (.str text2)) type2
    (advanceTo t2 (showMessage (some (.str text1)) type1 s).page)).page

/-- The page once a call of `showMessage` has shown the text `text`. -/
def Page.withMessage (s : Page) (text : JSString) (type : MessageType) : Page :=
  { s with messageDiv := ⟨text, [utf16 "message", type.name]⟩,
           timers := s.timers ++ [s.now + 5000] }

/-! ## Lemmas on rendering -/

theorem renderActivity_option {name : JSString} {details : JSON} {c : ActivityCard}
    {o : SelectOption} (h : renderActivity name details = .ok (c, o)) :
    o = ⟨name, name⟩ ∧ c.activityName = name := by
  unfold renderActivity at h
  simp only [bind, Except.bind, pure, Except.pure] at h
  repeat (split at h <;> try contradiction)
  injection h with h
  injection h with h1 h2
  subst h1 h2
  exact ⟨rfl, rfl⟩

theorem forEachEntry_page (entries : List (JSString × JSON)) (s : Page) :
    (forEachEntry entries s).page =
      { s with
        activitiesList := s.activitiesList ++ (renderedBefore entries).flatMap cardOf,
        activitySelect := s.activitySelect ++ (renderedBefore entries).map optionOf } := by
  induction entries generalizing s with
  | nil => simp [forEachEntry, renderedBefore, Outcome.page]
  | cons e rest ih =>
    obtain ⟨name, details⟩ := e
    cases h : renderActivity name details with
    | error err => simp [forEachEntry, renderedBefore, h, Outcome.page]
    | ok co =>
      obtain ⟨c, o⟩ := co
      have ho := (renderActivity_option h).1
      subst ho
      simp [forEachEntry, renderedBefore, h, ih, cardOf, optionOf]

theorem forEachEntry_thrown (entries : List (JSString × JSON)) (s : Page) :
    (forEachEntry entries s).thrown = none ↔ renderedBefore entries = entries := by
  induction entries generalizing s with
  | nil => simp [forEachEntry, renderedBefore, Outcome.thrown]
  | cons e rest ih =>
    obtain ⟨name, details⟩ := e
    cases h : renderActivity name details with
    | error err => simp [forEachEntry, renderedBefore, h, Outcome.thrown]
    | ok co =>
      obtain ⟨c, o⟩ := co
      simp [forEachEntry, renderedBefore, h, ih]

theorem appendEach_strings (name : JSString) (participants : List JSString)
    (participantsHtml : JSString) :
    ∃ html, appendEach (participantItem name) (participants.map .str) participantsHtml =
      .ok html := by
  induction participants generalizing participantsHtml with
  | nil => exact ⟨_, rfl⟩
  | cons p rest ih => simpa [appendEach, participantItem, JSON.toStr] using ih _

theorem renderActivity_typed (name : JSString) {details : JSON} {a : Activity}
    (h : details.IsActivity a) :
    ∃ c, renderActivity name details = .ok (c, ⟨name, name⟩) ∧ c.activityName = name ∧
      c.spotsLeft = .int (a.max_participants - a.participants.length) := by
  obtain ⟨hexact, props, exact, rfl, hd, hs, hm, hp⟩ := h
  obtain ⟨html, hhtml⟩ := appendEach_strings name a.participants
    (utf16 "<div class=\"participants-list\">")
  simp [renderActivity, getProp, getLength, forEachParticipant, hd, hs, hm, hp, bind,
    Except.bind, pure, Except.pure, toNumber, JSNumber.sub, toStr, JSON.toStr, hhtml, hexact]

theorem rendered_typed {entries : List (JSString × JSON)} {acts : List Activity}
    (h : IsCollection entries acts) :
    renderedBefore entries = entries ∧
    (entries.flatMap cardOf).map Node.activityName = entries.map (fun e => some e.1) ∧
    (entries.flatMap cardOf).map Node.spotsLeft =
      acts.map (fun a => some (.int (a.max_participants - a.participants.length))) ∧
    (entries.flatMap cardOf).map Node.availability =
      acts.map (fun a => some (utf16 "<p><strong>Availability:</strong> " ++
        utf16 (toString (a.max_participants - (a.participants.length : Int))) ++
        utf16 " spots left</p>")) := by
  induction h with
  | nil => simp [renderedBefore]
  | @cons e a entries acts hea _ ih =>
    obtain ⟨name, details⟩ := e
    obtain ⟨c, hc, hn, hsp⟩ := renderActivity_typed name hea
    obtain ⟨ih1, ih2, ih3, ih4⟩ := ih
    simp [renderedBefore, cardOf, hc, ih1, ih2, ih3, ih4, hn, hsp, Node.activityName,
      Node.spotsLeft, Node.availability, ActivityCard.availability, JSNumber.toStr]

theorem setLength_one (options : List SelectOption) :
    setLength 1 options = [options.headD ⟨[], []⟩] := by
  cases options <;> simp [setLength]

/-! ## Lemmas on `fetchActivities` -/

theorem fetchActivities_never_throws (r : FetchResult) (s : Page) :
    (fetchActivities r s).thrown = none := by
  unfold fetchActivities fetchActivitiesResume
  cases fetchActivitiesTry r (fetchActivitiesStart s) <;>
    simp [Outcome.thrown, fetchActivitiesCatch]

/-- The page `fetchActivities` ends in when the `try` block does not reach the
loop: the fetch rejects or the body is not JSON. -/
theorem fetchActivities_unread (r : FetchResult) (s : Page)
    (h : r = .rejected ∨ ∃ status, r = .response status none) :
    (fetchActivities r s).page.activitiesList = [.markup failureNotice] ∧
    (fetchActivities r s).page.activitySelect = s.activitySelect := by
  rcases h with rfl | ⟨status, rfl⟩ <;>
    simp [fetchActivities, fetchActivitiesResume, fetchActivitiesTry, fetchActivitiesCatch,
      fetchActivitiesStart, fetch, consoleError, Outcome.page]

/-- The page `fetchActivities` ends in when a body was parsed and the loop over
its entries ran to the end. -/
theorem fetchActivities_rendered (status : Nat) (body : JSON) (entries : List (JSString × JSON))
    (s : Page) (hb : objectEntries body = .ok entries) (hr : renderedBefore entries = entries) :
    (fetchActivities (.response status (some body)) s).page =
      { s with
        activitiesList := entries.flatMap cardOf,
        activitySelect := s.placeholder :: entries.map optionOf,
        requests := s.requests ++ [readRequest] } := by
  have hp := forEachEntry_page entries
    { fetchActivitiesStart s with
      activitiesList := [], activitySelect := setLength 1 s.activitySelect }
  have ht := (forEachEntry_thrown entries
    { fetchActivitiesStart s with
      activitiesList := [], activitySelect := setLength 1 s.activitySelect }).2 hr
  simp only [fetchActivities, fetchActivitiesResume, fetchActivitiesTry, hb,
    fetchActivitiesStart, fetch, addDeleteIconListeners] at *
  cases hf : forEachEntry entries _ with
  | done s2 =>
    rw [hf] at hp
    simp only [Outcome.page] at hp ⊢
    rw [hp, hr, setLength_one]
    rfl
  | threw e s2 => rw [hf] at ht; simp [Outcome.thrown] at ht

/-- The page `fetchActivities` ends in when a body was parsed and rendering
threw: on `Object.entries` itself, or on one of the entries. -/
theorem fetchActivities_interrupted (status : Nat) (body : JSON) (s : Page) :
    (∀ e, objectEntries body = .error e →
      (fetchActivities (.response status (some body)) s).page.activitiesList =
        [.markup failureNotice] ∧
      (fetchActivities (.response status (some body)) s).page.activitySelect =
        [s.placeholder]) ∧
    (∀ entries, objectEntries body = .ok entries → renderedBefore entries ≠ entries →
      (fetchActivities (.response status (some body)) s).page.activitiesList =
        [.markup failureNotice] ∧
      (fetchActivities (.response status (some body)) s).page.activitySelect =
        s.placeholder :: (renderedBefore entries).map optionOf) := by
  refine ⟨fun e hb => ?_, fun entries hb hr => ?_⟩
  · simp [fetchActivities, fetchActivitiesResume, fetchActivitiesTry, hb, fetchActivitiesCatch,
      fetchActivitiesStart, fetch, consoleError, Outcome.page, setLength_one, Page.placeholder]
  · have hp := forEachEntry_page entries
      { fetchActivitiesStart s with
        activitiesList := [], activitySelect := setLength 1 s.activitySelect }
    have ht := forEachEntry_thrown entries
      { fetchActivitiesStart s with
        activitiesList := [], activitySelect := setLength 1 s.activitySelect }
    simp only [fetchActivities, fetchActivitiesResume, fetchActivitiesTry, hb,
      fetchActivitiesStart, fetch, addDeleteIconListeners] at *
    cases hf : forEachEntry entries _ with
    | done s2 => rw [hf] at ht; simp [Outcome.thrown] at ht; exact absurd ht hr
    | threw e s2 =>
      rw [hf] at hp
      simp only [Outcome.page] at hp
      simp [fetchActivitiesCatch, consoleError, Outcome.page, hp, setLength_one,
        Page.placeholder]

theorem chessClubBody_typed : IsCollection chessClubBody [chessClub] :=
  .cons ⟨by decide, _, _, rfl, rfl, rfl, rfl, rfl⟩ .nil

/-! ## Claims on `fetchActivities` -/

/-- Claim C10. For every collection of the read contract with `n` entries and
every page before, after `fetchActivities` the selection control holds exactly
the placeholder followed by one option per entry, whose value and text are the
entry's name, in entry order (`n + 1` options), and the list holds exactly the
`n` cards of the entries; the resulting view is the same from any other prior
page with the same placeholder, and refreshing a second time with the same
payload leaves the view of the first refresh. -/
theorem fetchActivities_view_depends_on_payload_only (status : Nat)
    (entries : List (JSString × JSON)) (acts : List Activity) (s : Page)
    (h : IsCollection entries acts) :
    (fetchActivities (.response status (some (.obj entries))) s).page.activitySelect =
      s.placeholder :: entries.map (fun e => ⟨e.1, e.1⟩) ∧
    (fetchActivities (.response status (some (.obj entries))) s).page.activitySelect.length =
      entries.length + 1 ∧
    (fetchActivities (.response status (some (.obj entries))) s).page.activitiesList.map
        Node.activityName = entries.map (fun e => some e.1) ∧
    (fetchActivities (.response status (some (.obj entries))) s).page.activitiesList.length =
      entries.length ∧
    (∀ s2 : Page, s2.placeholder = s.placeholder →
      (fetchActivities (.response status (some (.obj entries))) s2).page.view =
        (fetchActivities (.response status (some (.obj entries))) s).page.view) ∧
    (fetchActivities (.response status (some (.obj entries)))
        (fetchActivities (.response status (some (.obj entries))) s).page).page.view =
      (fetchActivities (.response status (some (.obj entries))) s).page.view := by
  obtain ⟨h1, h2, -, -⟩ := rendered_typed h
  have hlen : (entries.flatMap cardOf).length = entries.length := by
    have := congrArg List.length h2
    simpa using this
  have hf := fun s0 => fetchActivities_rendered status (.obj entries) entries s0 rfl h1
  refine ⟨?_, ?_, ?_, ?_, ?_, ?_⟩
  · rw [hf]; rfl
  · rw [hf]; simp
  · rw [hf]; exact h2
  · rw [hf]; exact hlen
  · intro s2 hs2
    rw [hf, hf]
    simp [Page.view, hs2]
  · rw [hf, hf]
    simp [Page.view, Page.placeholder]

/-- An instance of claim C10: the example collection loaded on the initial page
and on the page a first load left. -/
theorem fetchActivities_view_chess_club :
    IsCollection chessClubBody [chessClub] ∧
    (fetchActivities (.response 200 (some (.obj chessClubBody))) page0).page.activitySelect =
      [⟨[], utf16 "-- Select an activity --"⟩, ⟨utf16 "Chess Club", utf16 "Chess Club"⟩] ∧
    (fetchActivities (.response 200 (some (.obj chessClubBody))) page1).page.view =
      page1.view :=
  have h := fetchActivities_view_depends_on_payload_only 200 chessClubBody [chessClub] page0
    chessClubBody_typed
  ⟨chessClubBody_typed, h.1, h.2.2.2.2.2⟩

/-- Claim C7, at a failing input. The read request is answered with status 500
and an empty JSON object as body: the response is not a success, yet
`fetchActivities` empties the list area and shows no failure notice (it does
not throw). -/
theorem fetchActivities_error_status_shows_no_notice :
    responseOk 500 = false ∧
    (fetchActivities (.response 500 (some (.obj []))) page0).page.activitiesList = [] ∧
    (fetchActivities (.response 500 (some (.obj []))) page0).page.activitiesList ≠
      [.markup failureNotice] ∧
    (fetchActivities (.response 500 (some (.obj []))) page0).thrown = none := by
  decide

/-- Claim C8 fails as stated. After a first successful load, a network failure
leaves the failure notice in the list area but the selection control still
holds the option of the earlier load; and when the second entry of a payload
cannot be rendered, the option of the first entry stays in the control. -/
theorem fetchActivities_failure_keeps_options :
    (fetchActivities .rejected page1).page.activitiesList = [.markup failureNotice] ∧
    (fetchActivities .rejected page1).page.activitySelect =
      [⟨[], utf16 "-- Select an activity --"⟩, ⟨utf16 "Chess Club", utf16 "Chess Club"⟩] ∧
    (fetchActivities (.response 200 (some (.obj brokenBody))) page0).page.activitiesList =
      [.markup failureNotice] ∧
    (fetchActivities (.response 200 (some (.obj brokenBody))) page0).page.activitySelect =
      [⟨[], utf16 "-- Select an activity --"⟩, ⟨utf16 "Chess Club", utf16 "Chess Club"⟩] := by
  decide

/-- Claim C8, amended. For every page before and every load whose `try` block
throws, the list area ends up holding only the static failure notice. The
selection control is left as the statements run before the failure left it,
since the failure path does not reset it: when the fetch rejects or the body is
not JSON it holds exactly the options it held before (so its placeholder only
when it held nothing else, as on a first load); when `Object.entries` throws on
the body it holds its placeholder only; and when rendering an entry throws it
holds the placeholder followed by the options of the entries rendered before
that one. -/
theorem fetchActivities_failure_shows_notice (r : FetchResult) (s : Page)
    (hfail : (fetchActivitiesTry r (fetchActivitiesStart s)).thrown ≠ none) :
    (fetchActivities r s).page.activitiesList = [.markup failureNotice] ∧
    (r = .rejected ∨ (∃ status, r = .response status none) →
      (fetchActivities r s).page.activitySelect = s.activitySelect) ∧
    (∀ status body e, r = .response status (some body) → objectEntries body = .error e →
      (fetchActivities r s).page.activitySelect = [s.placeholder]) ∧
    (∀ status body entries, r = .response status (some body) →
      objectEntries body = .ok entries →
      renderedBefore entries ≠ entries ∧
      (fetchActivities r s).page.activitySelect =
        s.placeholder :: (renderedBefore entries).map (fun e => ⟨e.1, e.1⟩)) := by
  have hlist : (fetchActivities r s).page.activitiesList = [.markup failureNotice] := by
    unfold fetchActivities fetchActivitiesResume
    cases hf : fetchActivitiesTry r (fetchActivitiesStart s) with
    | done s2 => rw [hf] at hfail; simp [Outcome.thrown] at hfail
    | threw e s2 => simp [fetchActivitiesCatch, consoleError, Outcome.page]
  refine ⟨hlist, fun h => (fetchActivities_unread r s h).2, ?_, ?_⟩
  · rintro status body e rfl hb
    exact ((fetchActivities_interrupted status body s).1 e hb).2
  · rintro status body entries rfl hb
    have hr : renderedBefore entries ≠ entries := by
      intro hr
      apply hfail
      have ht := (forEachEntry_thrown entries
        { fetchActivitiesStart s with
          activitiesList := [], activitySelect := setLength 1 s.activitySelect }).2 hr
      simp only [fetchActivitiesTry, hb, fetchActivitiesStart, fetch] at ht ⊢
      cases hf : forEachEntry entries _ with
      | done s2 => simp [Outcome.thrown]
      | threw e s2 => rw [hf] at ht; simp [Outcome.thrown] at ht
    exact ⟨hr, ((fetchActivities_interrupted status body s).2 entries hb hr).2⟩

/-- An instance of the amended claim C8: the network fails on the initial page,
where the selection control holds its placeholder only. -/
theorem fetchActivities_failure_on_first_load :
    (fetchActivitiesTry .rejected (fetchActivitiesStart page0)).thrown ≠ none ∧
    (fetchActivities .rejected page0).page.activitiesList = [.markup failureNotice] ∧
    (fetchActivities .rejected page0).page.activitySelect =
      [⟨[], utf16 "-- Select an activity --"⟩] :=
  have h := fetchActivities_failure_shows_notice .rejected page0 (by decide)
  ⟨by decide, h.1, h.2.1 (Or.inl rfl)⟩

/-! ## Lemmas on `showMessage` and the two handlers -/

theorem isEmpty_eq_false {l : JSString} (h : l ≠ []) : l.isEmpty = false := by
  cases l <;> simp_all

theorem showMessage_ok (text : JSVal) (type : MessageType) (s : Page) (t : JSString)
    (h : textContentOf text = .ok t) : showMessage text type s = .done (s.withMessage t type) := by
  cases type <;>
    simp [showMessage, h, Page.withMessage, classListRemove, hiddenClass, hideDelay,
      MessageType.name] <;> decide

theorem showMessage_error (text : JSVal) (type : MessageType) (s : Page) (e : JSError)
    (h : textContentOf text = .error e) : showMessage text type s = .threw e s := by
  simp [showMessage, h]

theorem showMessage_string (text : JSString) (type : MessageType) (s : Page) :
    showMessage (some (.str text)) type s = .done (s.withMessage text type) :=
  showMessage_ok _ type s text rfl

theorem signupCatch_eq (e : JSError) (s : Page) :
    signupCatch e s = .done (consoleError (utf16 "Error signing up:") e
      (s.withMessage (utf16 "Failed to sign up. Please try again.") .error)) := by
  simp [signupCatch, showMessage_string]

theorem unregisterCatch_eq (e : JSError) (s : Page) :
    unregisterCatch e s = .done (consoleError (utf16 "Error unregistering:") e
      (s.withMessage (utf16 "An error occurred during unregistration.") .error)) := by
  simp [unregisterCatch, showMessage_string]

/-- The listener with an empty value: the validation message, nothing else. -/
theorem signupSubmit_empty (email activity : JSString) (r : FetchResult) (s : Page)
    (h : email = [] ∨ activity = []) :
    signupSubmit email activity r s =
      .done (s.withMessage (utf16 "Please enter email and select an activity.") .error) := by
  rcases h with rfl | rfl <;> simp [signupSubmit, showMessage_string]

/-- The listener with a value that cannot be encoded: the `catch` block runs
on the page as it was. -/
theorem signupSubmit_unencodable (email activity : JSString) (r : FetchResult) (s : Page)
    (hemail : email ≠ []) (hactivity : activity ≠ [])
    (h : (∃ e, encodeURIComponent activity = .error e) ∨
      (∃ e, encodeURIComponent email = .error e)) :
    ∃ e, signupSubmit email activity r s = signupCatch e s := by
  simp only [signupSubmit, signupTry, isEmpty_eq_false hemail, isEmpty_eq_false hactivity]
  rcases h with ⟨e, h⟩ | ⟨e, h⟩
  · exact ⟨e, by simp [h]⟩
  · cases ha : encodeURIComponent activity with
    | error e2 => exact ⟨e2, by simp⟩
    | ok a => exact ⟨e, by simp [h]⟩

/-- The listener once the request is sent, case by case on the answer. -/
theorem signupSubmit_sent (email activity a e : JSString) (r : FetchResult) (s : Page)
    (hemail : email ≠ []) (hactivity : activity ≠ [])
    (ha : encodeURIComponent activity = .ok a) (he : encodeURIComponent email = .ok e) :
    signupSubmit email activity r s =
      match r with
      | .rejected => signupCatch .NetworkError (fetch .POST (signupUrl a e) s)
      | .response _ none => signupCatch .SyntaxError (fetch .POST (signupUrl a e) s)
      | .response status (some result) =>
        if responseOk status then
          match getProp (some result) (utf16 "message") with
          | .error err => signupCatch err (fetch .POST (signupUrl a e) s)
          | .ok message =>
            match textContentOf message with
            | .error err => signupCatch err (fetch .POST (signupUrl a e) s)
            | .ok text =>
              .done (fetchActivitiesStart
                { (fetch .POST (signupUrl a e) s).withMessage text .success with
                  formResets := s.formResets + 1 })
        else
          match getProp (some result) (utf16 "detail") with
          | .error err => signupCatch err (fetch .POST (signupUrl a e) s)
          | .ok detail =>
            match textContentOf (orElse detail (utf16 "An error occurred")) with
            | .error err => signupCatch err (fetch .POST (signupUrl a e) s)
            | .ok text => .done ((fetch .POST (signupUrl a e) s).withMessage text .error) := by
  simp only [signupSubmit, signupTry, isEmpty_eq_false hemail, isEmpty_eq_false hactivity, ha, he]
  cases r with
  | rejected => simp
  | response status body =>
    cases body with
    | none => simp
    | some result =>
      by_cases hok : responseOk status = true
      · cases hg : getProp (some result) (utf16 "message") with
        | error err => simp [hok, hg]
        | ok message =>
          cases ht : textContentOf message with
          | error err => simp [hok, hg, ht, showMessage_error _ _ _ _ ht]
          | ok text => simp [hok, hg, ht, showMessage_ok _ _ _ _ ht, Page.withMessage, fetch]
      · cases hg : getProp (some result) (utf16 "detail") with
        | error err => simp [hok, hg]
        | ok detail =>
          cases ht : textContentOf (orElse detail (utf16 "An error occurred")) with
          | error err => simp [hok, hg, ht, showMessage_error _ _ _ _ ht]
          | ok text => simp [hok, hg, ht, showMessage_ok _ _ _ _ ht]

/-- The click with the prompt declined: only the prompt is recorded. -/
theorem handleUnregisterClick_declined (activityName email : JSString) (r : FetchResult)
    (s : Page) :
    handleUnregisterClick activityName email false r s =
      .done { s with prompts := s.prompts ++ [confirmText activityName email] } := by
  simp [handleUnregisterClick]

/-- The confirmed click with a value that cannot be encoded: the `catch` block
runs before any request. -/
theorem handleUnregisterClick_unencodable (activityName email : JSString) (r : FetchResult)
    (s : Page)
    (h : (∃ e, encodeURIComponent activityName = .error e) ∨
      (∃ e, encodeURIComponent email = .error e)) :
    ∃ e, handleUnregisterClick activityName email true r s =
      unregisterCatch e { s with prompts := s.prompts ++ [confirmText activityName email] } := by
  simp only [handleUnregisterClick, unregisterTry]
  rcases h with ⟨e, h⟩ | ⟨e, h⟩
  · exact ⟨e, by simp [h]⟩
  · cases ha : encodeURIComponent activityName with
    | error e2 => exact ⟨e2, by simp⟩
    | ok a => exact ⟨e, by simp [h]⟩

/-- The confirmed click once the request is sent, case by case on the answer. -/
theorem handleUnregisterClick_sent (activityName email a e : JSString) (r : FetchResult)
    (s : Page)
    (ha : encodeURIComponent activityName = .ok a) (he : encodeURIComponent email = .ok e) :
    handleUnregisterClick activityName email true r s =
      match r with
      | .rejected =>
        unregisterCatch .NetworkError (fetch .DELETE (unregisterUrl a e)
          { s with prompts := s.prompts ++ [confirmText activityName email] })
      | .response _ none =>
        unregisterCatch .SyntaxError (fetch .DELETE (unregisterUrl a e)
          { s with prompts := s.prompts ++ [confirmText activityName email] })
      | .response status (some result) =>
        if responseOk status then
          match getProp (some result) (utf16 "message") with
          | .error err =>
            unregisterCatch err (fetchActivitiesStart (fetch .DELETE (unregisterUrl a e)
              { s with prompts := s.prompts ++ [confirmText activityName email] }))
          | .ok message =>
            match textContentOf message with
            | .error err =>
              unregisterCatch err (fetchActivitiesStart (fetch .DELETE (unregisterUrl a e)
                { s with prompts := s.prompts ++ [confirmText activityName email] }))
            | .ok text =>
              .done ((fetchActivitiesStart (fetch .DELETE (unregisterUrl a e)
                { s with prompts := s.prompts ++ [confirmText activityName email] })).withMessage
                  text .success)
        else
          match getProp (some result) (utf16 "detail") with
          | .error err =>
            unregisterCatch err (fetch .DELETE (unregisterUrl a e)
              { s with prompts := s.prompts ++ [confirmText activityName email] })
          | .ok detail =>
            match textContentOf (orElse detail (utf16 "Failed to unregister")) with
            | .error err =>
              unregisterCatch err (fetch .DELETE (unregisterUrl a e)
                { s with prompts := s.prompts ++ [confirmText activityName email] })
            | .ok text =>
              .done ((fetch .DELETE (unregisterUrl a e)
                { s with prompts := s.prompts ++ [confirmText activityName email] }).withMessage
                  text .error) := by
  simp only [handleUnregisterClick, unregisterTry, ha, he]
  cases r with
  | rejected => simp
  | response status body =>
    cases body with
    | none => simp
    | some result =>
      by_cases hok : responseOk status = true
      · cases hg : getProp (some result) (utf16 "message") with
        | error err => simp [hok, hg]
        | ok message =>
          cases ht : textContentOf message with
          | error err => simp [hok, hg, ht, showMessage_error _ _ _ _ ht]
          | ok text => simp [hok, hg, ht, showMessage_ok _ _ _ _ ht]
      · cases hg : getProp (some result) (utf16 "detail") with
        | error err => simp [hok, hg]
        | ok detail =>
          cases ht : textContentOf (orElse detail (utf16 "Failed to unregister")) with
          | error err => simp [hok, hg, ht, showMessage_error _ _ _ _ ht]
          | ok text => simp [hok, hg, ht, showMessage_ok _ _ _ _ ht]

/-- Neither handler throws to the event loop. -/
theorem handlers_never_throw (x y : JSString) (confirmed : Bool) (r : FetchResult) (s : Page) :
    (signupSubmit x y r s).thrown = none ∧
    (handleUnregisterClick x y confirmed r s).thrown = none := by
  constructor
  · simp only [signupSubmit]
    split
    · simp [showMessage_string, Outcome.thrown]
    · split <;> simp [signupCatch_eq, Outcome.thrown]
  · simp only [handleUnregisterClick]
    split
    · simp [Outcome.thrown]
    · split <;> simp [unregisterCatch_eq, Outcome.thrown]

theorem getProp_error {result : JSON} {key : JSString} {e : JSError}
    (h : getProp (some result) key = .error e) : result = .null := by
  cases result <;> simp [getProp] at h ⊢

theorem refreshed_append (s s2 : Page) (l : List Request)
    (h : s2.requests = s.requests ++ l) : refreshed s s2 = l.contains readRequest := by
  simp [refreshed, issued, h]

/-! ## Claims on the submit listener -/

/-- Claim C2. For every non-empty email and non-empty selected activity whose
signup request is issued (both values can be encoded) and answered by a
successful response whose body holds the message `m`, the submit listener shows
`m` with the class `success` (one call of `showMessage`, the line visible),
resets the form once, and issues after the signup request exactly one read
request. -/
theorem signupSubmit_success (email activity encodedActivity encodedEmail m : JSString)
    (status : Nat) (props : List (JSString × JSON)) (s : Page)
    (hemail : email ≠ []) (hactivity : activity ≠ [])
    (ha : encodeURIComponent activity = .ok encodedActivity)
    (he : encodeURIComponent email = .ok encodedEmail)
    (hok : responseOk status = true)
    (hm : props.lookup (utf16 "message") = some (.str m)) :
    (signupSubmit email activity (.response status (some (.obj props))) s).page.messageDiv =
      ⟨m, [utf16 "message", utf16 "success"]⟩ ∧
    (signupSubmit email activity (.response status (some (.obj props))) s).page.messageVisible =
      true ∧
    (signupSubmit email activity (.response status (some (.obj props))) s).page.timers =
      s.timers ++ [s.now + 5000] ∧
    (signupSubmit email activity (.response status (some (.obj props))) s).page.formResets =
      s.formResets + 1 ∧
    (signupSubmit email activity (.response status (some (.obj props))) s).page.requests =
      s.requests ++ [⟨.POST, utf16 "/activities/" ++ encodedActivity ++
        utf16 "/signup?email=" ++ encodedEmail⟩, ⟨.GET, utf16 "/activities"⟩] := by
  rw [signupSubmit_sent email activity encodedActivity encodedEmail _ s hemail hactivity ha he]
  simp [hok, getProp, hm, textContentOf, JSON.toStr, Page.withMessage, fetch,
    fetchActivitiesStart, Outcome.page, MessageType.name, signupUrl, Page.messageVisible,
    hiddenClass]
  exact ⟨by decide, by decide⟩

/-- The example of claim C2: the email "a@b.com" and the activity "Chess Club"
against a server that answers 200 with the message "Signed up". -/
theorem signupSubmit_success_example :
    utf16 "a@b.com" ≠ [] ∧ utf16 "Chess Club" ≠ [] ∧
    encodeURIComponent (utf16 "Chess Club") = .ok (utf16 "Chess%20Club") ∧
    encodeURIComponent (utf16 "a@b.com") = .ok (utf16 "a%40b.com") ∧
    responseOk 200 = true ∧
    (signupSubmit (utf16 "a@b.com") (utf16 "Chess Club")
      (.response 200 (some (.obj [(utf16 "message", .str (utf16 "Signed up"))])))
      page0).page.messageDiv = ⟨utf16 "Signed up", [utf16 "message", utf16 "success"]⟩ ∧
    (signupSubmit (utf16 "a@b.com") (utf16 "Chess Club")
      (.response 200 (some (.obj [(utf16 "message", .str (utf16 "Signed up"))])))
      page0).page.formResets = 1 ∧
    (signupSubmit (utf16 "a@b.com") (utf16 "Chess Club")
      (.response 200 (some (.obj [(utf16 "message", .str (utf16 "Signed up"))])))
      page0).page.requests =
      [⟨.POST, utf16 "/activities/Chess%20Club/signup?email=a%40b.com"⟩,
        ⟨.GET, utf16 "/activities"⟩] :=
  have h := signupSubmit_success (utf16 "a@b.com") (utf16 "Chess Club") (utf16 "Chess%20Club")
    (utf16 "a%40b.com") (utf16 "Signed up") 200 [(utf16 "message", .str (utf16 "Signed up"))]
    page0 (by decide) (by decide) rfl rfl rfl rfl
  ⟨by decide, by decide, rfl, rfl, rfl, h.1, h.2.2.2.1, h.2.2.2.2⟩

/-- The requests the listener issues once the signup request is sent: that
request alone, or that request followed by the read request. -/
theorem signupSubmit_sent_requests (email activity a e : JSString) (r : FetchResult) (s : Page)
    (hemail : email ≠ []) (hactivity : activity ≠ [])
    (ha : encodeURIComponent activity = .ok a) (he : encodeURIComponent email = .ok e) :
    (signupSubmit email activity r s).page.requests =
      s.requests ++ [⟨.POST, signupUrl a e⟩] ∨
    (signupSubmit email activity r s).page.requests =
      s.requests ++ [⟨.POST, signupUrl a e⟩, readRequest] := by
  rw [signupSubmit_sent email activity a e r s hemail hactivity ha he]
  cases r with
  | rejected => left; simp [signupCatch_eq, consoleError, Page.withMessage, fetch, Outcome.page]
  | response status body =>
    cases body with
    | none => left; simp [signupCatch_eq, consoleError, Page.withMessage, fetch, Outcome.page]
    | some result =>
      by_cases hok : responseOk status = true
      · cases hg : getProp (some result) (utf16 "message") with
        | error err =>
          left
          simp [hok, hg, signupCatch_eq, consoleError, Page.withMessage, fetch, Outcome.page]
        | ok message =>
          cases ht : textContentOf message with
          | error err =>
            left
            simp [hok, hg, ht, signupCatch_eq, consoleError, Page.withMessage, fetch,
              Outcome.page]
          | ok text =>
            right
            simp [hok, hg, ht, fetchActivitiesStart, fetch, Page.withMessage, readRequest,
              Outcome.page]
      · cases hg : getProp (some result) (utf16 "detail") with
        | error err =>
          left
          simp [hok, hg, signupCatch_eq, consoleError, Page.withMessage, fetch, Outcome.page]
        | ok detail =>
          cases ht : textContentOf (orElse detail (utf16 "An error occurred")) with
          | error err =>
            left
            simp [hok, hg, ht, signupCatch_eq, consoleError, Page.withMessage, fetch,
              Outcome.page]
          | ok text => left; simp [hok, hg, ht, Page.withMessage, fetch, Outcome.page]

/-- Claim C3 fails as stated. The email "a@b.com" and an activity whose name is
an unpaired surrogate are both non-empty, yet the listener issues no request:
encoding the activity throws, and the generic failure message is shown. -/
theorem signupSubmit_unpaired_surrogate_sends_nothing :
    utf16 "a@b.com" ≠ [] ∧ ([55296] : JSString) ≠ [] ∧
    (signupSubmit (utf16 "a@b.com") [55296] .rejected page0).page.requests = [] ∧
    (signupSubmit (utf16 "a@b.com") [55296] .rejected page0).page.messageDiv =
      ⟨utf16 "Failed to sign up. Please try again.", [utf16 "message", utf16 "error"]⟩ := by
  decide

/-- Claim C3, amended. For every pair of values read from the form, the submit
listener issues a network call if and only if both values are non-empty and can
be percent-encoded (`encodeURIComponent` does not throw, as it does on an
unpaired surrogate). When either value is empty it shows the validation message
as an error and issues no request; when both are non-empty and one cannot be
encoded it shows the generic failure message as an error and issues no request;
otherwise it issues exactly one POST request, to "/activities/" + encode(activity)
+ "/signup?email=" + encode(email), followed at most by the read request. -/
theorem signupSubmit_request_iff (email activity : JSString) (r : FetchResult) (s : Page) :
    ((signupSubmit email activity r s).page.requests ≠ s.requests ↔
      email ≠ [] ∧ activity ≠ [] ∧ (∃ a, encodeURIComponent activity = .ok a) ∧
        ∃ e, encodeURIComponent email = .ok e) ∧
    (email = [] ∨ activity = [] →
      (signupSubmit email activity r s).page.requests = s.requests ∧
      (signupSubmit email activity r s).page.messageDiv =
        ⟨utf16 "Please enter email and select an activity.",
          [utf16 "message", utf16 "error"]⟩) ∧
    (email ≠ [] → activity ≠ [] →
      (∃ err, encodeURIComponent activity = .error err) ∨
        (∃ err, encodeURIComponent email = .error err) →
      (signupSubmit email activity r s).page.requests = s.requests ∧
      (signupSubmit email activity r s).page.messageDiv =
        ⟨utf16 "Failed to sign up. Please try again.", [utf16 "message", utf16 "error"]⟩) ∧
    (∀ a e, email ≠ [] → activity ≠ [] → encodeURIComponent activity = .ok a →
      encodeURIComponent email = .ok e →
      (signupSubmit email activity r s).page.requests =
        s.requests ++ [⟨.POST, utf16 "/activities/" ++ a ++ utf16 "/signup?email=" ++ e⟩] ∨
      (signupSubmit email activity r s).page.requests =
        s.requests ++ [⟨.POST, utf16 "/activities/" ++ a ++ utf16 "/signup?email=" ++ e⟩,
          ⟨.GET, utf16 "/activities"⟩]) := by
  have hempty : email = [] ∨ activity = [] →
      (signupSubmit email activity r s).page.requests = s.requests ∧
      (signupSubmit email activity r s).page.messageDiv =
        ⟨utf16 "Please enter email and select an activity.",
          [utf16 "message", utf16 "error"]⟩ := by
    intro h
    rw [signupSubmit_empty email activity r s h]
    exact ⟨rfl, rfl⟩
  have hbad : email ≠ [] → activity ≠ [] →
      (∃ err, encodeURIComponent activity = .error err) ∨
        (∃ err, encodeURIComponent email = .error err) →
      (signupSubmit email activity r s).page.requests = s.requests ∧
      (signupSubmit email activity r s).page.messageDiv =
        ⟨utf16 "Failed to sign up. Please try again.", [utf16 "message", utf16 "error"]⟩ := by
    intro h1 h2 h
    obtain ⟨e, he⟩ := signupSubmit_unencodable email activity r s h1 h2 h
    rw [he, signupCatch_eq]
    exact ⟨rfl, rfl⟩
  have hsent := fun a e h1 h2 ha he =>
    signupSubmit_sent_requests email activity a e r s h1 h2 ha he
  refine ⟨⟨fun hne => ?_, fun h => ?_⟩, hempty, hbad, hsent⟩
  · by_cases h1 : email = []
    · exact absurd (hempty (Or.inl h1)).1 hne
    by_cases h2 : activity = []
    · exact absurd (hempty (Or.inr h2)).1 hne
    refine ⟨h1, h2, ?_, ?_⟩
    · cases ha : encodeURIComponent activity with
      | ok a => exact ⟨a, rfl⟩
      | error err => exact absurd (hbad h1 h2 (Or.inl ⟨err, ha⟩)).1 hne
    · cases he : encodeURIComponent email with
      | ok e => exact ⟨e, rfl⟩
      | error err => exact absurd (hbad h1 h2 (Or.inr ⟨err, he⟩)).1 hne
  · obtain ⟨h1, h2, ⟨a, ha⟩, ⟨e, he⟩⟩ := h
    rcases hsent a e h1 h2 ha he with h | h <;> rw [h] <;> simp

/-- An instance of the amended claim C3: the empty email with a selected
activity issues no request and shows the validation message, and the email
"a@b.com" with the activity "Chess Club" issues a request. -/
theorem signupSubmit_request_iff_example :
    (signupSubmit [] (utf16 "Chess Club") .rejected page0).page.requests = [] ∧
    (signupSubmit [] (utf16 "Chess Club") .rejected page0).page.messageDiv =
      ⟨utf16 "Please enter email and select an activity.", [utf16 "message", utf16 "error"]⟩ ∧
    (signupSubmit (utf16 "a@b.com") (utf16 "Chess Club") .rejected page0).page.requests ≠ [] :=
  have h0 := signupSubmit_request_iff [] (utf16 "Chess Club") .rejected page0
  have h1 := signupSubmit_request_iff (utf16 "a@b.com") (utf16 "Chess Club") .rejected page0
  ⟨(h0.2.1 (Or.inl rfl)).1, (h0.2.1 (Or.inl rfl)).2,
    h1.1.2 ⟨by decide, by decide, ⟨_, rfl⟩, ⟨_, rfl⟩⟩⟩

/-- Claim C4 fails as stated. The signup request is answered with status 500
and a body that is not JSON, so no detail is provided: the message shown is the
fallback of the `catch` block, not "An error occurred". -/
theorem signupSubmit_unreadable_error_body :
    responseOk 500 = false ∧
    (signupSubmit (utf16 "a@b.com") (utf16 "Chess Club")
      (.response 500 none) page0).page.messageDiv =
      ⟨utf16 "Failed to sign up. Please try again.", [utf16 "message", utf16 "error"]⟩ ∧
    (signupSubmit (utf16 "a@b.com") (utf16 "Chess Club")
      (.response 500 none) page0).page.messageDiv.textContent ≠ utf16 "An error occurred" := by
  decide

/-- Claim C4, amended. Whenever a signup does not succeed, the submit listener
shows exactly one message, of class `error`, does not reset the form, and
issues no read request (at most the signup request itself). The text is the
validation message when a value is empty. For a request that was sent: when
the response is unsuccessful and its body is JSON other than `null`, the text
is the detail of the body when that is truthy (so a non-empty string detail is
shown as it is) and "An error occurred" otherwise (no detail, or an empty
one); when the fetch rejects, or the body is not JSON or is `null`, or the
detail has no string conversion, the text is
"Failed to sign up. Please try again.". -/
theorem signupSubmit_failure (email activity : JSString) (r : FetchResult) (s : Page)
    (hfail : signupSucceeds email activity r = false) :
    (signupSubmit email activity r s).page.messageDiv.classList =
      [utf16 "message", utf16 "error"] ∧
    (signupSubmit email activity r s).page.timers = s.timers ++ [s.now + 5000] ∧
    (signupSubmit email activity r s).page.formResets = s.formResets ∧
    ((signupSubmit email activity r s).page.requests = s.requests ∨
      ∃ url, (signupSubmit email activity r s).page.requests = s.requests ++ [⟨.POST, url⟩]) ∧
    (email = [] ∨ activity = [] →
      (signupSubmit email activity r s).page.messageDiv.textContent =
        utf16 "Please enter email and select an activity.") ∧
    (∀ a e, email ≠ [] → activity ≠ [] → encodeURIComponent activity = .ok a →
      encodeURIComponent email = .ok e →
      (∀ status result detail text, r = .response status (some result) →
        responseOk status = false → getProp (some result) (utf16 "detail") = .ok detail →
        textContentOf (orElse detail (utf16 "An error occurred")) = .ok text →
        (signupSubmit email activity r s).page.messageDiv.textContent = text) ∧
      (∀ status props d, r = .response status (some (.obj props)) →
        responseOk status = false → props.lookup (utf16 "detail") = some (.str d) → d ≠ [] →
        (signupSubmit email activity r s).page.messageDiv.textContent = d) ∧
      (∀ status props, r = .response status (some (.obj props)) →
        responseOk status = false → props.lookup (utf16 "detail") = none →
        (signupSubmit email activity r s).page.messageDiv.textContent =
          utf16 "An error occurred") ∧
      (r = .rejected ∨ (∃ status, r = .response status none) ∨
          (∃ status, r = .response status (some .null)) ∨
          (∃ status result detail err, r = .response status (some result) ∧
            responseOk status = false ∧
            getProp (some result) (utf16 "detail") = .ok detail ∧
            textContentOf (orElse detail (utf16 "An error occurred")) = .error err) →
        (signupSubmit email activity r s).page.messageDiv.textContent =
          utf16 "Failed to sign up. Please try again.")) := by
  have hE : email = [] ∨ activity = [] →
      signupSubmit email activity r s =
        .done (s.withMessage (utf16 "Please enter email and select an activity.") .error) :=
    signupSubmit_empty email activity r s
  have hgen : ∀ a e, email ≠ [] → activity ≠ [] → encodeURIComponent activity = .ok a →
      encodeURIComponent email = .ok e →
      ∀ status result detail text, r = .response status (some result) →
        responseOk status = false → getProp (some result) (utf16 "detail") = .ok detail →
        textContentOf (orElse detail (utf16 "An error occurred")) = .ok text →
        (signupSubmit email activity r s).page.messageDiv.textContent = text := by
    intro a e h1 h2 ha he status result detail text hr hok hd ht
    subst hr
    rw [signupSubmit_sent email activity a e _ s h1 h2 ha he]
    simp [hok, hd, ht, Page.withMessage, Outcome.page]
  refine ⟨?_, ?_, ?_, ?_, ?_, ?_⟩
  case refine_5 =>
    intro h
    rw [hE h]
    rfl
  case refine_6 =>
    intro a e h1 h2 ha he
    refine ⟨hgen a e h1 h2 ha he, ?_, ?_, ?_⟩
    · intro status props d hr hok hd hne
      refine hgen a e h1 h2 ha he status (.obj props) (some (.str d)) d hr hok
        (by simp [getProp, hd]) ?_
      simp [orElse, truthy, isEmpty_eq_false hne, textContentOf, JSON.toStr]
    · intro status props hr hok hd
      refine hgen a e h1 h2 ha he status (.obj props) none _ hr hok (by simp [getProp, hd]) ?_
      simp [orElse, truthy, textContentOf, JSON.toStr]
    · intro hr
      rw [signupSubmit_sent email activity a e _ s h1 h2 ha he]
      rcases hr with rfl | ⟨status, rfl⟩ | ⟨status, rfl⟩ |
        ⟨status, result, detail, err, rfl, hok, hd, ht⟩
      · simp [signupCatch_eq, consoleError, Page.withMessage, Outcome.page]
      · simp [signupCatch_eq, consoleError, Page.withMessage, Outcome.page]
      · by_cases hok : responseOk status = true <;>
          simp [hok, getProp, signupCatch_eq, consoleError, Page.withMessage, Outcome.page]
      · simp [hok, hd, ht, signupCatch_eq, consoleError, Page.withMessage, Outcome.page]
  all_goals
    by_cases h0 : email = [] ∨ activity = []
    · rw [hE h0]
      simp [Page.withMessage, Outcome.page, MessageType.name]
    · have h1 : email ≠ [] := fun h => h0 (Or.inl h)
      have h2 : activity ≠ [] := fun h => h0 (Or.inr h)
      cases ha : encodeURIComponent activity with
      | error err =>
        obtain ⟨e2, he2⟩ := signupSubmit_unencodable email activity r s h1 h2 (Or.inl ⟨err, ha⟩)
        rw [he2]
        simp [signupCatch_eq, consoleError, Page.withMessage, Outcome.page, MessageType.name]
      | ok a =>
        cases he : encodeURIComponent email with
        | error err =>
          obtain ⟨e2, he2⟩ :=
            signupSubmit_unencodable email activity r s h1 h2 (Or.inr ⟨err, he⟩)
          rw [he2]
          simp [signupCatch_eq, consoleError, Page.withMessage, Outcome.page, MessageType.name]
        | ok e =>
          rw [signupSubmit_sent email activity a e r s h1 h2 ha he]
          simp only [signupSucceeds, isEmpty_eq_false h1, isEmpty_eq_false h2, ha, he,
            Except.toBool, messageShown] at hfail
          cases r with
          | rejected =>
            simp [signupCatch_eq, consoleError, Page.withMessage, Outcome.page,
              MessageType.name, fetch]
          | response status body =>
            cases body with
            | none =>
              simp [signupCatch_eq, consoleError, Page.withMessage, Outcome.page,
                MessageType.name, fetch]
            | some result =>
              by_cases hok : responseOk status = true
              · cases hg : getProp (some result) (utf16 "message") with
                | error err =>
                  simp [hok, hg, signupCatch_eq, consoleError, Page.withMessage, Outcome.page,
                    MessageType.name, fetch]
                | ok message =>
                  cases ht : textContentOf message with
                  | error err =>
                    simp [hok, hg, ht, signupCatch_eq, consoleError, Page.withMessage,
                      Outcome.page, MessageType.name, fetch]
                  | ok text => simp [hok, hg, ht] at hfail
              · cases hg : getProp (some result) (utf16 "detail") with
                | error err =>
                  simp [hok, hg, signupCatch_eq, consoleError, Page.withMessage, Outcome.page,
                    MessageType.name, fetch]
                | ok detail =>
                  cases ht : textContentOf (orElse detail (utf16 "An error occurred")) with
                  | error err =>
                    simp [hok, hg, ht, signupCatch_eq, consoleError, Page.withMessage,
                      Outcome.page, MessageType.name, fetch]
                  | ok text =>
                    simp [hok, hg, ht, Page.withMessage, Outcome.page, MessageType.name, fetch]

/-- The example of claim C4: a server that answers 400 with the detail
"Already registered". -/
theorem signupSubmit_failure_example :
    signupSucceeds (utf16 "a@b.com") (utf16 "Chess Club")
      (.response 400 (some (.obj [(utf16 "detail", .str (utf16 "Already registered"))]))) =
      false ∧
    (signupSubmit (utf16 "a@b.com") (utf16 "Chess Club")
      (.response 400 (some (.obj [(utf16 "detail", .str (utf16 "Already registered"))])))
      page0).page.messageDiv.textContent = utf16 "Already registered" ∧
    (signupSubmit (utf16 "a@b.com") (utf16 "Chess Club")
      (.response 400 (some (.obj [(utf16 "detail", .str (utf16 "Already registered"))])))
      page0).page.messageDiv.classList = [utf16 "message", utf16 "error"] ∧
    (signupSubmit (utf16 "a@b.com") (utf16 "Chess Club")
      (.response 400 (some (.obj [(utf16 "detail", .str (utf16 "Already registered"))])))
      page0).page.formResets = 0 ∧
    ((signupSubmit (utf16 "a@b.com") (utf16 "Chess Club")
      (.response 400 (some (.obj [(utf16 "detail", .str (utf16 "Already registered"))])))
      page0).page.requests.filter (· = readRequest)) = [] :=
  have h := signupSubmit_failure (utf16 "a@b.com") (utf16 "Chess Club")
    (.response 400 (some (.obj [(utf16 "detail", .str (utf16 "Already registered"))]))) page0
    (by decide)
  ⟨by decide,
    (h.2.2.2.2.2 _ _ (by decide) (by decide) rfl rfl).2.1 400 _
      (utf16 "Already registered") rfl (by decide) rfl (by decide),
    h.1, h.2.2.1, by decide⟩

/-- The predicate `signupSucceeds` holds exactly on the success branch: the
message has the class `success`, the form is reset and the read request follows
the signup request. -/
theorem signupSubmit_succeeds (email activity : JSString) (r : FetchResult) (s : Page)
    (h : signupSucceeds email activity r = true) :
    (signupSubmit email activity r s).page.messageDiv.classList =
      [utf16 "message", utf16 "success"] ∧
    (signupSubmit email activity r s).page.formResets = s.formResets + 1 ∧
    ∃ url, (signupSubmit email activity r s).page.requests =
      s.requests ++ [⟨.POST, url⟩, readRequest] := by
  simp only [signupSucceeds, Bool.and_eq_true, Bool.not_eq_true', List.isEmpty_eq_false] at h
  obtain ⟨⟨⟨⟨h1, h2⟩, ha⟩, he⟩, hr⟩ := h
  cases ha2 : encodeURIComponent activity with
  | error err => simp [ha2, Except.toBool] at ha
  | ok a =>
    cases he2 : encodeURIComponent email with
    | error err => simp [he2, Except.toBool] at he
    | ok e =>
      rw [signupSubmit_sent email activity a e r s h1 h2 ha2 he2]
      cases r with
      | rejected => simp at hr
      | response status body =>
        cases body with
        | none => simp at hr
        | some result =>
          simp only [Bool.and_eq_true, messageShown] at hr
          obtain ⟨hok, hg⟩ := hr
          cases hg2 : getProp (some result) (utf16 "message") with
          | error err => simp [hg2] at hg
          | ok message =>
            cases ht : textContentOf message with
            | error err => simp [hg2, ht, Except.toBool] at hg
            | ok text =>
              simp [hok, hg2, ht, fetchActivitiesStart, fetch, Page.withMessage, Outcome.page,
                MessageType.name, readRequest]

/-! ## Claims on `handleUnregisterClick` -/

/-- The requests a confirmed click issues once the unregister request is sent:
that request alone, or that request followed by the read request. -/
theorem handleUnregisterClick_sent_requests (activityName email a e : JSString)
    (r : FetchResult) (s : Page)
    (ha : encodeURIComponent activityName = .ok a) (he : encodeURIComponent email = .ok e) :
    (handleUnregisterClick activityName email true r s).page.requests =
      s.requests ++ [⟨.DELETE, unregisterUrl a e⟩] ∨
    (handleUnregisterClick activityName email true r s).page.requests =
      s.requests ++ [⟨.DELETE, unregisterUrl a e⟩, readRequest] := by
  rw [handleUnregisterClick_sent activityName email a e r s ha he]
  cases r with
  | rejected =>
    left; simp [unregisterCatch_eq, consoleError, Page.withMessage, fetch, Outcome.page]
  | response status body =>
    cases body with
    | none =>
      left; simp [unregisterCatch_eq, consoleError, Page.withMessage, fetch, Outcome.page]
    | some result =>
      by_cases hok : responseOk status = true
      · cases hg : getProp (some result) (utf16 "message") with
        | error err =>
          right
          simp [hok, hg, unregisterCatch_eq, consoleError, Page.withMessage, fetch,
            fetchActivitiesStart, readRequest, Outcome.page]
        | ok message =>
          cases ht : textContentOf message with
          | error err =>
            right
            simp [hok, hg, ht, unregisterCatch_eq, consoleError, Page.withMessage, fetch,
              fetchActivitiesStart, readRequest, Outcome.page]
          | ok text =>
            right
            simp [hok, hg, ht, Page.withMessage, fetch, fetchActivitiesStart, readRequest,
              Outcome.page]
      · cases hg : getProp (some result) (utf16 "detail") with
        | error err =>
          left
          simp [hok, hg, unregisterCatch_eq, consoleError, Page.withMessage, fetch,
            Outcome.page]
        | ok detail =>
          cases ht : textContentOf (orElse detail (utf16 "Failed to unregister")) with
          | error err =>
            left
            simp [hok, hg, ht, unregisterCatch_eq, consoleError, Page.withMessage, fetch,
              Outcome.page]
          | ok text => left; simp [hok, hg, ht, Page.withMessage, fetch, Outcome.page]

/-- Claim C6 fails as stated. A click on an icon whose activity name is an
unpaired surrogate, with the prompt accepted, issues no request: encoding the
name throws, and the generic failure message is shown. -/
theorem handleUnregisterClick_unpaired_surrogate_sends_nothing :
    (handleUnregisterClick [55296] (utf16 "a@b.com") true .rejected page0).page.requests = [] ∧
    (handleUnregisterClick [55296] (utf16 "a@b.com") true .rejected page0).page.messageDiv =
      ⟨utf16 "An error occurred during unregistration.",
        [utf16 "message", utf16 "error"]⟩ := by
  decide

/-- Claim C6, amended. For every click on a removal icon carrying the activity
name `a` and the email `e`, `handleUnregisterClick` issues a network call if
and only if the confirmation prompt is accepted and both values can be
percent-encoded (`encodeURIComponent` does not throw, as it does on an unpaired
surrogate). When the prompt is declined no request is issued and the message
line and its timers are left as they were; when it is accepted and a value
cannot be encoded no request is issued and the generic failure message is
shown; otherwise exactly one DELETE request is issued, to "/activities/" +
encode(a) + "/unregister?email=" + encode(e), followed at most by the read
request. -/
theorem handleUnregisterClick_request_iff (activityName email : JSString) (confirmed : Bool)
    (r : FetchResult) (s : Page) :
    ((handleUnregisterClick activityName email confirmed r s).page.requests ≠ s.requests ↔
      confirmed = true ∧ (∃ a, encodeURIComponent activityName = .ok a) ∧
        ∃ e, encodeURIComponent email = .ok e) ∧
    (confirmed = false →
      (handleUnregisterClick activityName email confirmed r s).page.requests = s.requests ∧
      (handleUnregisterClick activityName email confirmed r s).page.messageDiv = s.messageDiv ∧
      (handleUnregisterClick activityName email confirmed r s).page.timers = s.timers) ∧
    (confirmed = true →
      (∃ err, encodeURIComponent activityName = .error err) ∨
        (∃ err, encodeURIComponent email = .error err) →
      (handleUnregisterClick activityName email confirmed r s).page.requests = s.requests ∧
      (handleUnregisterClick activityName email confirmed r s).page.messageDiv =
        ⟨utf16 "An error occurred during unregistration.",
          [utf16 "message", utf16 "error"]⟩) ∧
    (∀ a e, confirmed = true → encodeURIComponent activityName = .ok a →
      encodeURIComponent email = .ok e →
      (handleUnregisterClick activityName email confirmed r s).page.requests =
        s.requests ++
          [⟨.DELETE, utf16 "/activities/" ++ a ++ utf16 "/unregister?email=" ++ e⟩] ∨
      (handleUnregisterClick activityName email confirmed r s).page.requests =
        s.requests ++
          [⟨.DELETE, utf16 "/activities/" ++ a ++ utf16 "/unregister?email=" ++ e⟩,
            ⟨.GET, utf16 "/activities"⟩]) := by
  have hno : confirmed = false →
      (handleUnregisterClick activityName email confirmed r s).page.requests = s.requests ∧
      (handleUnregisterClick activityName email confirmed r s).page.messageDiv = s.messageDiv ∧
      (handleUnregisterClick activityName email confirmed r s).page.timers = s.timers := by
    rintro rfl
    rw [handleUnregisterClick_declined]
    exact ⟨rfl, rfl, rfl⟩
  have hbad : confirmed = true →
      (∃ err, encodeURIComponent activityName = .error err) ∨
        (∃ err, encodeURIComponent email = .error err) →
      (handleUnregisterClick activityName email confirmed r s).page.requests = s.requests ∧
      (handleUnregisterClick activityName email confirmed r s).page.messageDiv =
        ⟨utf16 "An error occurred during unregistration.",
          [utf16 "message", utf16 "error"]⟩ := by
    rintro rfl h
    obtain ⟨e, he⟩ := handleUnregisterClick_unencodable activityName email r s h
    rw [he, unregisterCatch_eq]
    exact ⟨rfl, rfl⟩
  have hsent : ∀ a e, confirmed = true → encodeURIComponent activityName = .ok a →
      encodeURIComponent email = .ok e →
      (handleUnregisterClick activityName email confirmed r s).page.requests =
        s.requests ++ [⟨.DELETE, unregisterUrl a e⟩] ∨
      (handleUnregisterClick activityName email confirmed r s).page.requests =
        s.requests ++ [⟨.DELETE, unregisterUrl a e⟩, readRequest] := by
    rintro a e rfl ha he
    exact handleUnregisterClick_sent_requests activityName email a e r s ha he
  refine ⟨⟨fun hne => ?_, fun h => ?_⟩, hno, hbad, hsent⟩
  · cases hc : confirmed with
    | false => exact absurd (hno hc).1 hne
    | true =>
      refine ⟨rfl, ?_, ?_⟩
      · cases ha : encodeURIComponent activityName with
        | ok a => exact ⟨a, rfl⟩
        | error err => exact absurd (hbad hc (Or.inl ⟨err, ha⟩)).1 hne
      · cases he : encodeURIComponent email with
        | ok e => exact ⟨e, rfl⟩
        | error err => exact absurd (hbad hc (Or.inr ⟨err, he⟩)).1 hne
  · obtain ⟨hc, ⟨a, ha⟩, ⟨e, he⟩⟩ := h
    rcases hsent a e hc ha he with h | h <;> rw [h] <;> simp

/-- An instance of the amended claim C6: declining the prompt on the initial
page issues nothing and leaves the message line hidden and empty; accepting it
for "a@b.com" in "Chess Club" issues the DELETE request. -/
theorem handleUnregisterClick_request_iff_example :
    (handleUnregisterClick (utf16 "Chess Club") (utf16 "a@b.com") false .rejected
      page0).page.requests = [] ∧
    (handleUnregisterClick (utf16 "Chess Club") (utf16 "a@b.com") false .rejected
      page0).page.messageDiv = ⟨[], [utf16 "hidden"]⟩ ∧
    (handleUnregisterClick (utf16 "Chess Club") (utf16 "a@b.com") true .rejected
      page0).page.requests =
        [⟨.DELETE, utf16 "/activities/Chess%20Club/unregister?email=a%40b.com"⟩] :=
  have h0 := handleUnregisterClick_request_iff (utf16 "Chess Club") (utf16 "a@b.com") false
    .rejected page0
  have h1 := handleUnregisterClick_request_iff (utf16 "Chess Club") (utf16 "a@b.com") true
    .rejected page0
  ⟨(h0.2.1 rfl).1, (h0.2.1 rfl).2.1,
    (h1.2.2.2 (utf16 "Chess%20Club") (utf16 "a%40b.com") rfl rfl rfl).resolve_right
      (by decide)⟩

/-- Claim C5 fails as stated. Both requests are answered with status 200 and
the body `null`: the click handler has already issued the read request when
reading `result.message` throws, while the submit listener throws before its
refresh, so one refreshes and the other does not; and the click handler shows
an error although the response is successful. -/
theorem handleUnregisterClick_null_body_refreshes :
    responseOk 200 = true ∧
    refreshed page0 (handleUnregisterClick (utf16 "Chess Club") (utf16 "a@b.com") true
      (.response 200 (some .null)) page0).page = true ∧
    refreshed page0 (signupSubmit (utf16 "a@b.com") (utf16 "Chess Club")
      (.response 200 (some .null)) page0).page = false ∧
    (handleUnregisterClick (utf16 "Chess Club") (utf16 "a@b.com") true
      (.response 200 (some .null)) page0).page.messageDiv.classList =
        [utf16 "message", utf16 "error"] := by
  decide

/-- Claim C5, amended. For every confirmed click whose DELETE request is sent,
every signup whose POST request is sent, and every answer other than a
successful response whose message cannot be read and shown (the body is `null`,
or the message has no string conversion), the click handler and the submit
listener agree on whether a read request is issued and on the class of the
message shown. For the click handler: a successful response whose body holds
the message `m` shows `m` as success and issues the read request after the
DELETE request; an unsuccessful response whose body is JSON other than `null`
shows its detail when that is truthy, and "Failed to unregister" otherwise, as
an error without a read request; a rejected fetch or a body that is not JSON
shows "An error occurred during unregistration." as an error without a read
request. -/
theorem handleUnregisterClick_mirrors_signup
    (activityName email formEmail formActivity a e fa fe : JSString)
    (r : FetchResult) (s : Page)
    (ha : encodeURIComponent activityName = .ok a) (he : encodeURIComponent email = .ok e)
    (hformEmail : formEmail ≠ []) (hformActivity : formActivity ≠ [])
    (hfa : encodeURIComponent formActivity = .ok fa)
    (hfe : encodeURIComponent formEmail = .ok fe)
    (hr : ∀ status result, r = .response status (some result) → responseOk status = true →
      messageShown result = true) :
    refreshed s (handleUnregisterClick activityName email true r s).page =
      refreshed s (signupSubmit formEmail formActivity r s).page ∧
    (handleUnregisterClick activityName email true r s).page.messageDiv.classList =
      (signupSubmit formEmail formActivity r s).page.messageDiv.classList ∧
    (∀ status props m, r = .response status (some (.obj props)) → responseOk status = true →
      props.lookup (utf16 "message") = some (.str m) →
      (handleUnregisterClick activityName email true r s).page.messageDiv =
        ⟨m, [utf16 "message", utf16 "success"]⟩ ∧
      (handleUnregisterClick activityName email true r s).page.requests =
        s.requests ++ [⟨.DELETE, unregisterUrl a e⟩, ⟨.GET, utf16 "/activities"⟩]) ∧
    (∀ status result detail text, r = .response status (some result) →
      responseOk status = false → getProp (some result) (utf16 "detail") = .ok detail →
      textContentOf (orElse detail (utf16 "Failed to unregister")) = .ok text →
      (handleUnregisterClick activityName email true r s).page.messageDiv =
        ⟨text, [utf16 "message", utf16 "error"]⟩ ∧
      (handleUnregisterClick activityName email true r s).page.requests =
        s.requests ++ [⟨.DELETE, unregisterUrl a e⟩]) ∧
    (r = .rejected ∨ (∃ status, r = .response status none) →
      (handleUnregisterClick activityName email true r s).page.messageDiv =
        ⟨utf16 "An error occurred during unregistration.",
          [utf16 "message", utf16 "error"]⟩ ∧
      (handleUnregisterClick activityName email true r s).page.requests =
        s.requests ++ [⟨.DELETE, unregisterUrl a e⟩]) := by
  have hu := handleUnregisterClick_sent activityName email a e r s ha he
  have hs := signupSubmit_sent formEmail formActivity fa fe r s hformEmail hformActivity hfa hfe
  refine ⟨?_, ?_, ?_, ?_, ?_⟩
  case refine_3 =>
    rintro status props m rfl hok hm
    rw [hu]
    simp [hok, getProp, hm, Page.withMessage, fetchActivitiesStart, fetch, textContentOf,
      JSON.toStr, MessageType.name, Outcome.page]
  case refine_4 =>
    rintro status result detail text rfl hok hd ht
    rw [hu]
    simp [hok, hd, ht, Page.withMessage, fetch, MessageType.name, Outcome.page]
  case refine_5 =>
    intro h
    rw [hu]
    rcases h with rfl | ⟨status, rfl⟩ <;>
      simp [unregisterCatch_eq, consoleError, Page.withMessage, fetch, Outcome.page,
        MessageType.name]
  all_goals
    cases r with
    | rejected =>
      rw [hu, hs]
      first
        | rw [refreshed_append s _ [⟨.DELETE, unregisterUrl a e⟩]
              (by simp [unregisterCatch_eq, consoleError, Page.withMessage, fetch,
                Outcome.page]),
            refreshed_append s _ [⟨.POST, signupUrl fa fe⟩]
              (by simp [signupCatch_eq, consoleError, Page.withMessage, fetch, Outcome.page])]
          simp [readRequest]
        | simp [unregisterCatch_eq, signupCatch_eq, consoleError, Page.withMessage,
            Outcome.page]
    | response status body =>
      cases body with
      | none =>
        rw [hu, hs]
        first
          | rw [refreshed_append s _ [⟨.DELETE, unregisterUrl a e⟩]
                (by simp [unregisterCatch_eq, consoleError, Page.withMessage, fetch,
                  Outcome.page]),
              refreshed_append s _ [⟨.POST, signupUrl fa fe⟩]
                (by simp [signupCatch_eq, consoleError, Page.withMessage, fetch,
                  Outcome.page])]
            simp [readRequest]
          | simp [unregisterCatch_eq, signupCatch_eq, consoleError, Page.withMessage,
              Outcome.page]
      | some result =>
        by_cases hok : responseOk status = true
        · have hshown := hr status result rfl hok
          simp only [messageShown] at hshown
          cases hg : getProp (some result) (utf16 "message") with
          | error err => simp [hg] at hshown
          | ok message =>
            cases ht : textContentOf message with
            | error err => simp [hg, ht, Except.toBool] at hshown
            | ok text =>
              rw [hu, hs]
              first
                | rw [refreshed_append s _ [⟨.DELETE, unregisterUrl a e⟩, readRequest]
                      (by simp [hok, hg, ht, Page.withMessage, fetch, fetchActivitiesStart,
                        readRequest, Outcome.page]),
                    refreshed_append s _ [⟨.POST, signupUrl fa fe⟩, readRequest]
                      (by simp [hok, hg, ht, Page.withMessage, fetch, fetchActivitiesStart,
                        readRequest, Outcome.page])]
                  simp [readRequest]
                | simp [hok, hg, ht, Page.withMessage, fetchActivitiesStart, fetch,
                    Outcome.page]
        · cases hg : getProp (some result) (utf16 "detail") with
          | error err =>
            rw [hu, hs]
            first
              | rw [refreshed_append s _ [⟨.DELETE, unregisterUrl a e⟩]
                    (by simp [hok, hg, unregisterCatch_eq, consoleError, Page.withMessage,
                      fetch, Outcome.page]),
                  refreshed_append s _ [⟨.POST, signupUrl fa fe⟩]
                    (by simp [hok, hg, signupCatch_eq, consoleError, Page.withMessage, fetch,
                      Outcome.page])]
                simp [readRequest]
              | simp [hok, hg, unregisterCatch_eq, signupCatch_eq, consoleError,
                  Page.withMessage, Outcome.page]
          | ok detail =>
            rw [hu, hs]
            cases ht1 : textContentOf (orElse detail (utf16 "Failed to unregister")) <;>
              cases ht2 : textContentOf (orElse detail (utf16 "An error occurred")) <;>
              first
                | rw [refreshed_append s _ [⟨.DELETE, unregisterUrl a e⟩]
                      (by simp [hok, hg, ht1, unregisterCatch_eq, consoleError,
                        Page.withMessage, fetch, Outcome.page]),
                    refreshed_append s _ [⟨.POST, signupUrl fa fe⟩]
                      (by simp [hok, hg, ht2, signupCatch_eq, consoleError, Page.withMessage,
                        fetch, Outcome.page])]
                  simp [readRequest]
                | simp [hok, hg, ht1, ht2, unregisterCatch_eq, signupCatch_eq, consoleError,
                    Page.withMessage, Outcome.page]

/-- The example of claim C5: a confirmed click answered by 200 with the message
"Removed" shows it as success and issues the read request, as the submit
listener does for the same answer. -/
theorem handleUnregisterClick_mirrors_signup_example :
    encodeURIComponent (utf16 "Chess Club") = .ok (utf16 "Chess%20Club") ∧
    encodeURIComponent (utf16 "a@b.com") = .ok (utf16 "a%40b.com") ∧
    messageShown (.obj [(utf16 "message", .str (utf16 "Removed"))]) = true ∧
    refreshed page0 (handleUnregisterClick (utf16 "Chess Club") (utf16 "a@b.com") true
      (.response 200 (some (.obj [(utf16 "message", .str (utf16 "Removed"))]))) page0).page =
      refreshed page0 (signupSubmit (utf16 "a@b.com") (utf16 "Chess Club")
        (.response 200 (some (.obj [(utf16 "message", .str (utf16 "Removed"))]))) page0).page ∧
    (handleUnregisterClick (utf16 "Chess Club") (utf16 "a@b.com") true
      (.response 200 (some (.obj [(utf16 "message", .str (utf16 "Removed"))])))
      page0).page.messageDiv = ⟨utf16 "Removed", [utf16 "message", utf16 "success"]⟩ ∧
    (handleUnregisterClick (utf16 "Chess Club") (utf16 "a@b.com") true
      (.response 200 (some (.obj [(utf16 "message", .str (utf16 "Removed"))])))
      page0).page.requests =
      [⟨.DELETE, utf16 "/activities/Chess%20Club/unregister?email=a%40b.com"⟩,
        ⟨.GET, utf16 "/activities"⟩] :=
  have h := handleUnregisterClick_mirrors_signup (utf16 "Chess Club") (utf16 "a@b.com")
    (utf16 "a@b.com") (utf16 "Chess Club") (utf16 "Chess%20Club") (utf16 "a%40b.com")
    (utf16 "Chess%20Club") (utf16 "a%40b.com")
    (.response 200 (some (.obj [(utf16 "message", .str (utf16 "Removed"))]))) page0
    rfl rfl (by decide) (by decide) rfl rfl (fun _ _ h _ => by cases h; rfl)
  have h3 := h.2.2.1 200 _ (utf16 "Removed") rfl rfl rfl
  ⟨rfl, rfl, rfl, h.1, h3.1, h3.2⟩

/-! ## Claims on `showMessage` -/

theorem hideMessage_foldl (l : List Nat) (s : Page) :
    (l.foldl (fun acc _ => hideMessage acc) s).messageDiv.textContent =
      s.messageDiv.textContent ∧
    (l ≠ [] ∨ hiddenClass ∈ s.messageDiv.classList →
      hiddenClass ∈ (l.foldl (fun acc _ => hideMessage acc) s).messageDiv.classList) := by
  induction l generalizing s with
  | nil => simp
  | cons t rest ih =>
    have hmem : hiddenClass ∈ (hideMessage s).messageDiv.classList := by
      simp only [hideMessage, classListAdd]
      split <;> simp_all
    obtain ⟨ih1, ih2⟩ := ih (hideMessage s)
    refine ⟨?_, fun _ => ?_⟩
    · simpa [hideMessage] using ih1
    · simpa using ih2 (Or.inr hmem)

/-- Claim C9 does not hold of the code. Two messages are shown, the second at a
time `t2` strictly between the first call and the end of its five seconds, and
nothing else happens. The timer of the first call is still pending after the
second call; at five seconds from the first call, which is before five seconds
from the second, it runs and hides the line while it shows the second
message. -/
theorem showMessage_first_timer_hides_second (text1 text2 : JSString)
    (type1 type2 : MessageType) (t2 : Nat) (s : Page)
    (h1 : s.now < t2) (h2 : t2 < s.now + 5000) :
    (shownTwice text1 text2 type1 type2 t2 s).now = t2 ∧
    s.now + 5000 ∈ (shownTwice text1 text2 type1 type2 t2 s).timers ∧
    (shownTwice text1 text2 type1 type2 t2 s).messageDiv.textContent = text2 ∧
    (shownTwice text1 text2 type1 type2 t2 s).messageVisible = true ∧
    s.now + 5000 < t2 + 5000 ∧
    (advanceTo (s.now + 5000) (shownTwice text1 text2 type1 type2 t2 s)).messageDiv.textContent =
      text2 ∧
    (advanceTo (s.now + 5000) (shownTwice text1 text2 type1 type2 t2 s)).messageVisible =
      false := by
  have hmem : s.now + 5000 ∈ (shownTwice text1 text2 type1 type2 t2 s).timers := by
    simp [shownTwice, showMessage_string, Page.withMessage, advanceTo, Outcome.page, h2]
  have hvis : (shownTwice text1 text2 type1 type2 t2 s).messageVisible = true := by
    cases type2 <;>
      simp [shownTwice, showMessage_string, Page.withMessage, Outcome.page,
        Page.messageVisible, MessageType.name, hiddenClass] <;> decide
  have htext : (shownTwice text1 text2 type1 type2 t2 s).messageDiv.textContent = text2 := by
    simp [shownTwice, showMessage_string, Page.withMessage, Outcome.page]
  have hdue : (shownTwice text1 text2 type1 type2 t2 s).timers.filter (· ≤ s.now + 5000) ≠ [] := by
    intro h
    have : s.now + 5000 ∈
        (shownTwice text1 text2 type1 type2 t2 s).timers.filter (· ≤ s.now + 5000) := by
      simp [List.mem_filter, hmem]
    rw [h] at this
    simp at this
  have hf := hideMessage_foldl
    ((shownTwice text1 text2 type1 type2 t2 s).timers.filter (· ≤ s.now + 5000))
    (shownTwice text1 text2 type1 type2 t2 s)
  refine ⟨?_, hmem, htext, hvis, by omega, ?_, ?_⟩
  · simp [shownTwice, showMessage_string, Page.withMessage, Outcome.page, advanceTo]
    omega
  · simp only [advanceTo]
    rw [hf.1, htext]
  · have := hf.2 (Or.inl hdue)
    simp only [advanceTo, Page.messageVisible]
    simpa using this

/-- The example of claim C9: a first message at time 0 and a second one three
seconds later. The second is still shown just before five seconds, and hidden
at five seconds, three seconds before its own five seconds have passed. -/
theorem showMessage_second_hidden_after_two_seconds :
    page0.now < 3000 ∧ 3000 < page0.now + 5000 ∧
    (shownTwice (utf16 "Signed up") (utf16 "Removed") .success .success 3000 page0).now =
      3000 ∧
    (advanceTo 4999 (shownTwice (utf16 "Signed up") (utf16 "Removed") .success .success 3000
      page0)).messageVisible = true ∧
    (advanceTo 5000 (shownTwice (utf16 "Signed up") (utf16 "Removed") .success .success 3000
      page0)).messageDiv.textContent = utf16 "Removed" ∧
    (advanceTo 5000 (shownTwice (utf16 "Signed up") (utf16 "Removed") .success .success 3000
      page0)).messageVisible = false ∧
    (advanceTo 7999 (shownTwice (utf16 "Signed up") (utf16 "Removed") .success .success 3000
      page0)).messageVisible = false :=
  have h := showMessage_first_timer_hides_second (utf16 "Signed up") (utf16 "Removed")
    .success .success 3000 page0 (by decide) (by decide)
  ⟨by decide, by decide, h.1, by decide, h.2.2.2.2.2.1, h.2.2.2.2.2.2, by decide⟩

end App
